import Mathlib

/-!
Verification development for the neurpg tile-map generation engine.

The definitions below are a shallow embedding of the final
spine/hub/cluster `StructuredGenerator` (grid values `TERRAIN = 0`,
`FLOOR = 1`, `WALL = 2`, `DOOR = 3`), of the door-metadata version of
`ConstraintSolver.placeItems`, and of the connection-graph repair in the
serverless director (`generateMapConfig`).  JavaScript numbers appearing
in the generator are integers throughout (the sources floor every
coordinate), so they are modelled by `Int`; the ambient `Math.random()`
stream is modelled by an explicit list of naturals that drives every
shuffle.
-/

namespace NeuRPG

/-- Grid cell values, exactly as in the source: `TERRAIN = 0`, `FLOOR = 1`,
`WALL = 2`, `DOOR = 3`. -/
def TERRAIN : Nat := 0

/-- Floor cell value. -/
def FLOOR : Nat := 1

/-- Wall cell value. -/
def WALL : Nat := 2

/-- Door cell value. -/
def DOOR : Nat := 3

/-- `RoomConfig` from `types/MapConfig.ts` (`type` is renamed `rtype`;
the optional explicit dimensions come from the extended schema used by the
generator). -/
structure RoomConfig where
  id : String
  name : String
  rtype : String
  connections : List String
  furniture : List String
  width? : Option Int := none
  height? : Option Int := none
deriving Repr, DecidableEq

/-- `MapConfig`: canvas size plus the room list (the `type`/`tone`/
`description` fields play no role in the layout engine). -/
structure MapConfig where
  width : Int
  height : Int
  rooms : List RoomConfig
deriving Repr, DecidableEq

/-- The layout `Rect` helper class: integer position/size plus the owning
room config. -/
structure Rect where
  x : Int
  y : Int
  w : Int
  h : Int
  room : RoomConfig
deriving Repr, DecidableEq

def Rect.right (r : Rect) : Int := r.x + r.w

def Rect.bottom (r : Rect) : Int := r.y + r.h

/-- `Math.floor(x + w/2)` for integer `x`, `w`. -/
def Rect.centerX (r : Rect) : Int := r.x + r.w.fdiv 2

def Rect.centerY (r : Rect) : Int := r.y + r.h.fdiv 2

def Rect.area (r : Rect) : Int := r.w * r.h

/-- Reposition a rect (the JS code mutates `child.x`/`child.y`). -/
def Rect.withPos (r : Rect) (x y : Int) : Rect := { r with x := x, y := y }

/-- `Rect.intersects(other, 0)`: strict interior overlap; mere edge/corner
touching is not an intersection. -/
def Rect.intersects (a b : Rect) : Bool :=
  decide (a.x < b.right) && decide (a.right > b.x) &&
  decide (a.y < b.bottom) && decide (a.bottom > b.y)

/-- `StructuredGenerator.checkCollision`: a rect collides with a list of
obstacles when it strictly intersects one that has a different room id. -/
def checkCollision (rect : Rect) (others : List Rect) : Bool :=
  others.any (fun o => rect.room.id != o.room.id && rect.intersects o)

/-! ### Case-insensitive substring tests (the `/…|…/i.test` regexes) -/

/-- The lowercased character list of a string (`s.toLowerCase()`). -/
def lowerChars (s : String) : List Char := s.data.map Char.toLower

/-- Does `pat` occur as a contiguous sublist of `hay`? -/
def containsSub (hay pat : List Char) : Bool :=
  match hay with
  | [] => pat.isEmpty
  | _ :: t => pat.isPrefixOf hay || containsSub t pat

/-- `/p₁|p₂|…/i.test s` for lowercase literal alternatives `pats`. -/
def testAny (pats : List String) (s : String) : Bool :=
  pats.any (fun p => containsSub (lowerChars s) p.data)

/-! ### Room dimensions and the strategy selector -/

/-- JS truthiness of an optional numeric field (`undefined` and `0` are
falsy). -/
def truthy : Option Int → Bool
  | none => false
  | some n => n != 0

/-- `StructuredGenerator.getRoomDimensions` (final variant): explicit
config dimensions when both are truthy, else defaults keyed on the type
string. -/
def getRoomDimensions (c : RoomConfig) : Int × Int :=
  if truthy c.width? && truthy c.height? then (c.width?.getD 0, c.height?.getD 0)
  else
    if testAny ["corridor", "hall", "passage"] c.rtype then (10, 2)
    else if testAny ["living", "ballroom", "common"] c.rtype then (10, 8)
    else if testAny ["master"] c.rtype then (8, 6)
    else if testAny ["kitchen", "dining"] c.rtype then (6, 6)
    else if testAny ["bath", "wc", "toilet"] c.rtype then (3, 3)
    else (5, 5)

/-- The spine-anchor test of the final selector:
`/corridor|hall|passage|gallery/i` on the type or
`/corridor|hall|passage/i` on the name. -/
def spinePred (r : Rect) : Bool :=
  testAny ["corridor", "hall", "passage", "gallery"] r.room.rtype ||
  testAny ["corridor", "hall", "passage"] r.room.name

/-- The hub-anchor test: `/living|common|lobby|foyer|main/i` on the type or
`/living|common|lobby/i` on the name, and at least two declared
connections. -/
def hubPred (r : Rect) : Bool :=
  (testAny ["living", "common", "lobby", "foyer", "main"] r.room.rtype ||
   testAny ["living", "common", "lobby"] r.room.name) &&
  decide (2 ≤ r.room.connections.length)

/-- Which layout strategy `generate` dispatches to, and on which anchor. -/
inductive LayoutChoice where
  | spine (r : Rect)
  | hub (r : Rect)
  | cluster
deriving Repr, DecidableEq

/-- The strategy selector of `StructuredGenerator.generate`: first rect
passing `spinePred` wins, else first rect passing `hubPred`, else
cluster. -/
def selectLayout (allRects : List Rect) : LayoutChoice :=
  match allRects.find? spinePred with
  | some r => .spine r
  | none =>
    match allRects.find? hubPred with
    | some r => .hub r
    | none => .cluster

/-! ### The random stream and shuffles

`Math.random()`-driven shuffles are modelled by consuming an explicit
stream of naturals: each draw removes the element at index
`n % length`. -/

/-- Pop the next random number (0 when the stream is exhausted). -/
def popRand : List Nat → Nat × List Nat
  | [] => (0, [])
  | n :: rest => (n, rest)

/-- Fuel-driven core of the shuffle; the fuel is the list length, which
strictly drops with every `eraseIdx`, so the fuel never runs out. -/
def shuffleGo {α : Type} : Nat → List α → List Nat → List α × List Nat
  | 0, _, s => ([], s)
  | fuel + 1, l, s =>
    match l with
    | [] => ([], s)
    | a :: t =>
      let n := (popRand s).1
      let s1 := (popRand s).2
      let i := n % (a :: t).length
      let x := (a :: t).getD i a
      let rest := (a :: t).eraseIdx i
      let out := shuffleGo fuel rest s1
      (x :: out.1, out.2)

/-- A stream-driven permutation, modelling `array.sort(() => Math.random() - 0.5)`:
each draw removes the element at index `n % length`. -/
def shuffleWith {α : Type} (l : List α) (s : List Nat) : List α × List Nat :=
  shuffleGo l.length l s

/-! ### The tight snap search -/

/-- The eight candidate positions of `findTightSnapPosition`: four
edge-centered and four corner-aligned placements flush against the
parent. -/
def snapCandidates (parent child : Rect) : List (Int × Int) :=
  [ (parent.centerX - child.w.fdiv 2, parent.y - child.h),
    (parent.centerX - child.w.fdiv 2, parent.bottom),
    (parent.x - child.w, parent.centerY - child.h.fdiv 2),
    (parent.right, parent.centerY - child.h.fdiv 2),
    (parent.x, parent.y - child.h),
    (parent.right - child.w, parent.y - child.h),
    (parent.x, parent.bottom),
    (parent.right - child.w, parent.bottom) ]

/-- `StructuredGenerator.findTightSnapPosition`: first candidate that does
not collide with the obstacles. -/
def findTightSnapPosition (parent child : Rect) (obstacles : List Rect) :
    Option (Int × Int) :=
  (snapCandidates parent child).find?
    (fun p => !(checkCollision (child.withPos p.1 p.2) obstacles))

/-! ### Stable area-descending sort (`(a, b) => b.w*b.h - a.w*a.h`) -/

def insertByAreaDesc (a : Rect) : List Rect → List Rect
  | [] => [a]
  | b :: l => if b.area > a.area then b :: insertByAreaDesc a l else a :: b :: l

/-- Stable sort by descending area, as the (stable) JS `sort` with the
comparator `b.area - a.area`. -/
def sortByAreaDesc : List Rect → List Rect
  | [] => []
  | a :: t => insertByAreaDesc a (sortByAreaDesc t)

/-! ### Spine layout -/

/-- The four packing cursors of `buildSpineLayout`. -/
structure SpineCursors where
  top : Int
  bottom : Int
  left : Int
  right : Int
deriving Repr, DecidableEq

/-- Position and new cursors for the `i`-th spine child: alternate
top/bottom along a horizontal spine (left/right along a vertical one),
advancing the corresponding packing cursor. -/
def spineChildPos (spine : Rect) (isHorizontal : Bool) (child : Rect) (i : Nat)
    (cur : SpineCursors) : (Int × Int) × SpineCursors :=
  if isHorizontal then
    if i % 2 == 0 then
      ((cur.top, spine.y - child.h), { cur with top := cur.top + child.w })
    else
      ((cur.bottom, spine.bottom), { cur with bottom := cur.bottom + child.w })
  else
    if i % 2 == 0 then
      ((spine.x - child.w, cur.left), { cur with left := cur.left + child.h })
    else
      ((spine.right, cur.right), { cur with right := cur.right + child.h })

/-- One step of the `children.forEach` loop of `buildSpineLayout`: the
cursor advances whether or not the child is accepted; the child is
accepted only when it does not collide with the already placed rects. -/
def spinePlaceChildren (spine : Rect) (isHorizontal : Bool) :
    List Rect → Nat → SpineCursors → List Rect → List Rect
  | [], _, _, placed => placed
  | child :: rest, i, cur, placed =>
    let pc := spineChildPos spine isHorizontal child i cur
    let child' := child.withPos pc.1.1 pc.1.2
    let placed' := if checkCollision child' placed then placed else placed ++ [child']
    spinePlaceChildren spine isHorizontal rest (i + 1) pc.2 placed'

/-! ### Leftover placement (shared by spine and hub) -/

/-- One pass of the `placeLeftovers` while-loop body: each still-unplaced
child looks for a placed parent it is connected to and tries a tight snap;
the second component reports whether any placement succeeded. -/
def leftoverPass : List Rect → List Rect → List Rect × Bool
  | [], placed => (placed, false)
  | child :: rest, placed =>
    match placed.find? (fun p => child.room.connections.contains p.room.id) with
    | some parent =>
      match findTightSnapPosition parent child placed with
      | some pos =>
        let out := leftoverPass rest (placed ++ [child.withPos pos.1 pos.2])
        (out.1, true)
      | none => leftoverPass rest placed
    | none => leftoverPass rest placed

def placedHasId (placed : List Rect) (rid : String) : Bool :=
  placed.any (fun p => p.room.id == rid)

/-- The `placeLeftovers` while-loop (`stuck < 50`), with enough fuel to
cover every iteration the JS loop can perform. -/
def placeLeftoversLoop (allRects : List Rect) :
    Nat → Nat → List Rect → List Rect
  | 0, _, placed => placed
  | fuel + 1, stuck, placed =>
    if placed.length < allRects.length && stuck < 50 then
      let unplaced := allRects.filter (fun r => !placedHasId placed r.room.id)
      if unplaced.isEmpty then placed
      else
        let out := leftoverPass unplaced placed
        placeLeftoversLoop allRects fuel (if out.2 then stuck else stuck + 1) out.1
    else placed

def placeLeftovers (allRects placed : List Rect) : List Rect :=
  placeLeftoversLoop allRects (allRects.length + 51) 0 placed

/-! ### The three strategies -/

/-- `StructuredGenerator.buildSpineLayout`. -/
def buildSpineLayout (spine0 : Rect) (allRects : List Rect) (mapW mapH : Int) :
    List Rect :=
  let spine := spine0.withPos ((mapW - spine0.w).fdiv 2) ((mapH - spine0.h).fdiv 2)
  let children := allRects.filter
    (fun r => r.room.id != spine.room.id && spine.room.connections.contains r.room.id)
  let children := sortByAreaDesc children
  let isHorizontal := decide (spine.h ≤ spine.w)
  let placed := spinePlaceChildren spine isHorizontal children 0
    ⟨spine.x, spine.x, spine.y, spine.y⟩ [spine]
  placeLeftovers allRects placed

/-- Children loop of `buildHubLayout`: every child snaps against the hub. -/
def hubPlaceChildren (hub : Rect) : List Rect → List Rect → List Rect
  | [], placed => placed
  | child :: rest, placed =>
    match findTightSnapPosition hub child placed with
    | some pos => hubPlaceChildren hub rest (placed ++ [child.withPos pos.1 pos.2])
    | none => hubPlaceChildren hub rest placed

/-- `StructuredGenerator.buildHubLayout`. -/
def buildHubLayout (hub0 : Rect) (allRects : List Rect) (mapW mapH : Int) :
    List Rect :=
  let hub := hub0.withPos ((mapW - hub0.w).fdiv 2) ((mapH - hub0.h).fdiv 2)
  let children := allRects.filter
    (fun r => r.room.id != hub.room.id && hub.room.connections.contains r.room.id)
  let placed := hubPlaceChildren hub children [hub]
  placeLeftovers allRects placed

/-- Try each shuffled parent in turn; the first whose tight snap accepts
yields the positioned child. -/
def tryParents : List Rect → Rect → List Rect → Option Rect
  | [], _, _ => none
  | parent :: rest, child, placed =>
    match findTightSnapPosition parent child placed with
    | some pos => some (child.withPos pos.1 pos.2)
    | none => tryParents rest child placed

/-- Queue loop of `buildClusterLayout`: each child tries the placed rects
in a freshly shuffled order. -/
def clusterPlace : List Rect → List Rect → List Nat → List Rect × List Nat
  | [], placed, s => (placed, s)
  | child :: rest, placed, s =>
    let sh := shuffleWith placed s
    match tryParents sh.1 child placed with
    | some child' => clusterPlace rest (placed ++ [child']) sh.2
    | none => clusterPlace rest placed sh.2

/-- `StructuredGenerator.buildClusterLayout`: largest room anchors in the
canvas center, the rest attach to randomly ordered parents. -/
def buildClusterLayout (allRects : List Rect) (mapW mapH : Int) (s : List Nat) :
    List Rect × List Nat :=
  match sortByAreaDesc allRects with
  | [] => ([], s)
  | anchor0 :: _ =>
    let sorted := sortByAreaDesc allRects
    let anchor := anchor0.withPos ((mapW - anchor0.w).fdiv 2) ((mapH - anchor0.h).fdiv 2)
    let queue := sorted.filter (fun r => r.room.id != anchor.room.id)
    clusterPlace queue [anchor] s

/-! ### The cell grid -/

/-- The cell grid `grid: number[][]`, addressed as `grid[y][x]`. -/
abbrev Grid := List (List Nat)

/-- The per-cell room-ownership grid `roomGrid` (−1 = no room). -/
abbrev RGrid := List (List Int)

def mkGrid (w h : Int) (v : Nat) : Grid :=
  List.replicate h.toNat (List.replicate w.toNat v)

def mkRGrid (w h : Int) : RGrid :=
  List.replicate h.toNat (List.replicate w.toNat (-1))

def gridGet (g : Grid) (x y : Nat) : Nat := (g.getD y []).getD x 0

def gridSet (g : Grid) (x y : Nat) (v : Nat) : Grid :=
  g.set y ((g.getD y []).set x v)

def rgridGet (rg : RGrid) (x y : Nat) : Int := (rg.getD y []).getD x (-1)

def rgridSet (rg : RGrid) (x y : Nat) (v : Int) : RGrid :=
  rg.set y ((rg.getD y []).set x v)

/-- Signed grid read; any out-of-bounds cell reads as `TERRAIN`. -/
def gridGetI (g : Grid) (x y : Int) : Nat :=
  if 0 ≤ x && 0 ≤ y then gridGet g x.toNat y.toNat else TERRAIN

/-- Signed room-grid read; out of bounds reads as −1. -/
def rgridGetI (rg : RGrid) (x y : Int) : Int :=
  if 0 ≤ x && 0 ≤ y then rgridGet rg x.toNat y.toNat else -1

/-- `[a, b)` as a list of integers (empty when `b ≤ a`). -/
def intRange (a b : Int) : List Int :=
  (List.range (b - a).toNat).map (fun i => a + (i : Int))

/-- Output tile record (`TileData`). -/
structure TileData where
  x : Int
  y : Int
  sprite : String
  rotation : Option Int := none
  layer : String
deriving Repr, DecidableEq

/-- A recorded door cell. -/
structure DoorPos where
  x : Int
  y : Int
deriving Repr, DecidableEq

/-- Output room record (`RoomData`), including the door metadata appended
by the door carver. -/
structure RoomData where
  id : String
  name : String
  rtype : String
  x : Int
  y : Int
  width : Int
  height : Int
  doors : List DoorPos
deriving Repr, DecidableEq

/-- Output map record (`MapData`). -/
structure MapData where
  width : Int
  height : Int
  tiles : List TileData
  rooms : List RoomData
deriving Repr, DecidableEq

/-! ### Rasterizer -/

/-- Paint one placed rect onto the grids, clamped to the canvas. -/
def paintRect (W H : Int) (idx : Int) (r : Rect) (g : Grid) (rg : RGrid) :
    Grid × RGrid :=
  let sX := max 0 r.x
  let sY := max 0 r.y
  let eX := min W r.right
  let eY := min H r.bottom
  (intRange sY eY).foldl
    (fun acc y =>
      (intRange sX eX).foldl
        (fun acc2 x =>
          (gridSet acc2.1 x.toNat y.toNat FLOOR, rgridSet acc2.2 x.toNat y.toNat idx))
        acc)
    (g, rg)

def rectToRoomData (r : Rect) : RoomData :=
  { id := r.room.id, name := r.room.name, rtype := r.room.rtype,
    x := r.x, y := r.y, width := r.w, height := r.h, doors := [] }

/-- One step of the rasterizer fold (indexed placed rect). -/
def rasterStep (W H : Int) (acc : Grid × RGrid × List RoomData)
    (ir : Nat × Rect) : Grid × RGrid × List RoomData :=
  let gr := paintRect W H (ir.1 : Int) ir.2 acc.1 acc.2.1
  (gr.1, gr.2, acc.2.2 ++ [rectToRoomData ir.2])

/-- Step 4 of `generate`: paint every placed rect and register its
metadata. -/
def rasterize (W H : Int) (placed : List Rect) (g : Grid) (rg : RGrid) :
    Grid × RGrid × List RoomData :=
  (placed.enum).foldl (rasterStep W H) (g, rg, [])

/-! ### Wall pass -/

/-- Row-major cell enumeration, `y` outer as in the source loops. -/
def cellListYX (w h : Nat) : List (Nat × Nat) :=
  (List.range h).flatMap (fun y => (List.range w).map (fun x => (x, y)))

def wallDirs : List (Int × Int) := [(0, -1), (0, 1), (-1, 0), (1, 0)]

/-- Does a floor cell's neighborhood trigger the wall conversion: an
in-bounds 4-neighbor that is `TERRAIN`, or `FLOOR` owned by a different
room? -/
def wallTrigger (W H : Nat) (rg : RGrid) (g : Grid) (x y : Nat) : Bool :=
  wallDirs.any (fun d =>
    let nx : Int := (x : Int) + d.1
    let ny : Int := (y : Int) + d.2
    if nx < 0 || ny < 0 || nx ≥ (W : Int) || ny ≥ (H : Int) then false
    else
      let nv := gridGet g nx.toNat ny.toNat
      let nroom := rgridGet rg nx.toNat ny.toNat
      nv == TERRAIN || (nv == FLOOR && nroom != -1 && nroom != rgridGet rg x y))

/-- One cell of `generateWalls`: a `FLOOR` cell becomes `WALL` when its
neighborhood triggers. Reads see the partially updated grid, as in the
sequential JS loop. -/
def wallStep (W H : Nat) (rg : RGrid) (g : Grid) (c : Nat × Nat) : Grid :=
  if gridGet g c.1 c.2 == FLOOR then
    if wallTrigger W H rg g c.1 c.2 then gridSet g c.1 c.2 WALL else g
  else g

/-- Step 5a of `generate`: the wall pass over every cell in row-major
order. -/
def generateWalls (W H : Nat) (rg : RGrid) (g : Grid) : Grid :=
  (cellListYX W H).foldl (wallStep W H rg) g

/-! ### Door carver -/

/-- `setDoor`: bounds-checked write of `DOOR`. -/
def setDoor (x y : Int) (g : Grid) : Grid :=
  if 0 ≤ y && y < (g.length : Int) && 0 ≤ x && x < ((g.getD 0 []).length : Int)
  then gridSet g x.toNat y.toNat DOOR
  else g

/-- `addDoorMeta`: append a door cell to the first room with the given id,
skipping duplicates. -/
def addDoorMeta : List RoomData → String → Int → Int → List RoomData
  | [], _, _, _ => []
  | r :: rest, rid, x, y =>
    if r.id == rid then
      (if r.doors.any (fun d => d.x == x && d.y == y) then r
       else { r with doors := r.doors ++ [⟨x, y⟩] }) :: rest
    else r :: addDoorMeta rest rid x y

/-- `StructuredGenerator.carveDoor`: carve a 2-wide, 2-deep door at the
midpoint of a touching edge with overlap ≥ 2, and record the cells in both
rooms' metadata. -/
def carveDoor (rA rB : Rect) (g : Grid) (rooms : List RoomData) :
    Grid × List RoomData :=
  let ixs := max rA.x rB.x
  let ixe := min rA.right rB.right
  let iys := max rA.y rB.y
  let iye := min rA.bottom rB.bottom
  let st1 :=
    if decide (2 ≤ ixe - ixs) && (rA.bottom == rB.y || rA.y == rB.bottom) then
      let dx := (ixs + ixe).fdiv 2 - 1
      let boundaryY := if rA.bottom == rB.y then rA.bottom else rA.y
      let g1 := setDoor dx boundaryY g
      let g2 := setDoor dx (boundaryY - 1) g1
      let g3 := setDoor (dx + 1) boundaryY g2
      let g4 := setDoor (dx + 1) (boundaryY - 1) g3
      let rm1 := addDoorMeta rooms rA.room.id dx (boundaryY - 1)
      let rm2 := addDoorMeta rm1 rA.room.id (dx + 1) (boundaryY - 1)
      let rm3 := addDoorMeta rm2 rB.room.id dx boundaryY
      let rm4 := addDoorMeta rm3 rB.room.id (dx + 1) boundaryY
      (g4, rm4)
    else (g, rooms)
  if decide (2 ≤ iye - iys) && (rA.right == rB.x || rA.x == rB.right) then
    let dy := (iys + iye).fdiv 2 - 1
    let boundaryX := if rA.right == rB.x then rA.right else rA.x
    let g1 := setDoor boundaryX dy st1.1
    let g2 := setDoor (boundaryX - 1) dy g1
    let g3 := setDoor boundaryX (dy + 1) g2
    let g4 := setDoor (boundaryX - 1) (dy + 1) g3
    let rm1 := addDoorMeta st1.2 rA.room.id (boundaryX - 1) dy
    let rm2 := addDoorMeta rm1 rA.room.id (boundaryX - 1) (dy + 1)
    let rm3 := addDoorMeta rm2 rB.room.id boundaryX dy
    let rm4 := addDoorMeta rm3 rB.room.id boundaryX (dy + 1)
    (g4, rm4)
  else st1

/-- One declared connection of one placed rect. -/
def doorConnStep (placed : List Rect) (rA : Rect) (acc : Grid × List RoomData)
    (connId : String) : Grid × List RoomData :=
  match placed.find? (fun p => p.room.id == connId) with
  | some rB => carveDoor rA rB acc.1 acc.2
  | none => acc

/-- All declared connections of one placed rect. -/
def doorRectStep (placed : List Rect) (acc : Grid × List RoomData) (rA : Rect) :
    Grid × List RoomData :=
  rA.room.connections.foldl (doorConnStep placed rA) acc

/-- Step 5b of `generate`: carve a door for every declared connection
between placed rects. -/
def generateDoors (placed : List Rect) (g : Grid) (rooms : List RoomData) :
    Grid × List RoomData :=
  placed.foldl (doorRectStep placed) (g, rooms)

/-! ### Tile emission -/

def getFloorSprite (t : String) : String :=
  if testAny ["kitchen"] t then "floor_kitchen"
  else if testAny ["bath", "toilet"] t then "floor_bathroom"
  else if testAny ["corridor", "hall"] t then "floor_hallway"
  else "floor_common"

def emptyRoomConfig : RoomConfig :=
  { id := "", name := "", rtype := "", connections := [], furniture := [] }

/-- Step 6a of `generate`: emit the base/floor/wall/door tiles for every
cell. -/
def generateTiles (W H : Nat) (g : Grid) (rg : RGrid) (cfgRooms : List RoomConfig) :
    List TileData :=
  (cellListYX W H).foldl
    (fun tiles c =>
      let x := c.1
      let y := c.2
      let v := gridGet g x y
      let rIdx := rgridGet rg x y
      let base := tiles ++ [⟨(x : Int), (y : Int), "grass", none, "floor"⟩]
      if v == WALL then base ++ [⟨(x : Int), (y : Int), "wall_brick", none, "wall"⟩]
      else if v == FLOOR || v == DOOR then
        let sprite :=
          if rIdx != -1 && decide (rIdx < (cfgRooms.length : Int)) && decide (0 ≤ rIdx)
          then getFloorSprite (cfgRooms.getD rIdx.toNat emptyRoomConfig).rtype
          else "floor_common"
        let base2 := base ++ [⟨(x : Int), (y : Int), sprite, none, "floor"⟩]
        if v == DOOR then base2 ++ [⟨(x : Int), (y : Int), "door_wood", none, "furniture"⟩]
        else base2
      else base)
    []

/-! ### Furniture constraint solver (door-metadata version) -/

/-- Zone classification of a floor cell. -/
inductive Zone where
  | wall
  | center
  | doorway
deriving Repr, DecidableEq

/-- A classified floor cell of a room. -/
structure ZoneCell where
  x : Int
  y : Int
  ztype : Zone
deriving Repr, DecidableEq

/-- A static furniture rule. -/
structure FurnitureRule where
  width : Int
  height : Int
  preferredZones : List Zone
  blocksDoor : Bool := false
  faces : Option String := none
deriving Repr, DecidableEq

/-- The static rule table of `ConstraintSolver`. -/
def rules : String → Option FurnitureRule
  | "bed" => some { width := 1, height := 2, preferredZones := [.wall], blocksDoor := true }
  | "chest" => some { width := 1, height := 1, preferredZones := [.wall, .center] }
  | "table" => some { width := 2, height := 2, preferredZones := [.center] }
  | "chair" => some { width := 1, height := 1, preferredZones := [.center] }
  | "rug" => some { width := 2, height := 2, preferredZones := [.center] }
  | "sofa" => some { width := 2, height := 1, preferredZones := [.center, .wall] }
  | "tv" => some { width := 1, height := 1, preferredZones := [.wall], faces := some "sofa" }
  | "throne" => some { width := 2, height := 2, preferredZones := [.wall], blocksDoor := true }
  | "bookshelf" => some { width := 2, height := 1, preferredZones := [.wall] }
  | "gold" => some { width := 1, height := 1, preferredZones := [.center] }
  | "fire" => some { width := 1, height := 1, preferredZones := [.center] }
  | _ => none

/-- `ConstraintSolver.calculateZones`: classify every in-bounds floor cell
of the room's bounding box as wall-adjacent or interior. -/
def calculateZones (room : RoomData) (g : Grid) (floorValue : Nat) : List ZoneCell :=
  (intRange room.y (room.y + room.height)).foldl
    (fun acc y =>
      (intRange room.x (room.x + room.width)).foldl
        (fun acc2 x =>
          if y < 0 || (g.length : Int) ≤ y || x < 0 || ((g.getD 0 []).length : Int) ≤ x
          then acc2
          else if gridGetI g x y != floorValue then acc2
          else
            let isWall := wallDirs.any (fun d =>
              let nx := x + d.1
              let ny := y + d.2
              nx < 0 || ny < 0 || ((g.getD 0 []).length : Int) ≤ nx ||
                (g.length : Int) ≤ ny || gridGetI g nx ny != floorValue)
            acc2 ++ [⟨x, y, if isWall then .wall else .center⟩])
        acc)
    []

/-- An accepted furniture placement. -/
structure PlacedItem where
  ptype : String
  x : Int
  y : Int
  width : Int
  height : Int
  rotation : Int
deriving Repr, DecidableEq

/-- The sort comparator of `placeItems` (sofa-before-tv override, then
descending footprint area). -/
def itemCmp (a b : String) : Int :=
  if a == "sofa" && b == "tv" then -1
  else if a == "tv" && b == "sofa" then 1
  else
    let ruleA := (rules a).getD { width := 1, height := 1, preferredZones := [] }
    let ruleB := (rules b).getD { width := 1, height := 1, preferredZones := [] }
    ruleB.width * ruleB.height - ruleA.width * ruleA.height

def insertByCmp (a : String) : List String → List String
  | [] => [a]
  | b :: l => if itemCmp a b > 0 then b :: insertByCmp a l else a :: b :: l

/-- Stable sort of the furniture request list by `itemCmp`. -/
def sortItems : List String → List String
  | [] => []
  | a :: t => insertByCmp a (sortItems t)

/-- `checkBounds`: every footprint cell must be an in-bounds cell holding
the floor value. -/
def checkBounds (x y w h : Int) (g : Grid) (floorValue : Nat) : Bool :=
  (List.range h.toNat).all (fun dy =>
    (List.range w.toNat).all (fun dx =>
      let nx := x + (dx : Int)
      let ny := y + (dy : Int)
      !(nx < 0 || ny < 0 || ((g.getD 0 []).length : Int) ≤ nx || (g.length : Int) ≤ ny) &&
      gridGetI g nx ny == floorValue))

/-- `checkCollision` of the solver: axis-aligned overlap with an already
placed item. -/
def checkItemCollision (x y w h : Int) (placed : List PlacedItem) : Bool :=
  placed.any (fun item =>
    decide (x < item.x + item.width) && decide (item.x < x + w) &&
    decide (y < item.y + item.height) && decide (item.y < y + h))

/-- `checkDoorBlocking`: does the footprint cover a recorded door cell? -/
def checkDoorBlocking (x y w h : Int) (doors : List DoorPos) : Bool :=
  doors.any (fun d =>
    decide (x ≤ d.x) && decide (d.x < x + w) &&
    decide (y ≤ d.y) && decide (d.y < y + h))

/-- Exact-arithmetic model of `checkFacing`: doubled center-to-center
vector, facing unit vector from the rotation, and the `dot > 0.5` cone
test (`s > 0 ∧ 4s² > |d|²`). -/
def checkFacing (x y w h rot : Int) (target : PlacedItem) : Bool :=
  let dxI := (2 * target.x + target.width) - (2 * x + w)
  let dyI := (2 * target.y + target.height) - (2 * y + h)
  if dxI == 0 && dyI == 0 then true
  else
    let f : Int × Int :=
      if rot == 0 then (0, -1)
      else if rot == 90 then (1, 0)
      else if rot == 180 then (0, 1)
      else if rot == 270 then (-1, 0)
      else (0, 0)
    let s := f.1 * dxI + f.2 * dyI
    decide (0 < s) && decide (dxI * dxI + dyI * dyI < 4 * (s * s))

/-- The facing test as used in `placeItems`: only enforced when the faced
target type is already placed. -/
def facingOk (rule : FurnitureRule) (x y w h rot : Int)
    (placed : List PlacedItem) : Bool :=
  match rule.faces with
  | none => true
  | some f =>
    match placed.find? (fun p => p.ptype == f) with
    | none => true
    | some target => checkFacing x y w h rot target

/-- The zones tried for an item: its preferred zones, then `wall` and
`center` appended when missing (as the JS pushes do). -/
def zonesToTry (rule : FurnitureRule) : List Zone :=
  let base := if rule.preferredZones.isEmpty then [.wall, .center] else rule.preferredZones
  let base := if base.contains Zone.wall then base else base ++ [.wall]
  if base.contains Zone.center then base else base ++ [.center]

/-- Try the four rotations at one candidate cell; first rotation passing
every check wins. -/
def tryPlaceAt (itemType : String) (rule : FurnitureRule) (doors : List DoorPos)
    (g : Grid) (floorValue : Nat) (placed : List PlacedItem) (cand : ZoneCell) :
    Option PlacedItem :=
  ([0, 90, 180, 270] : List Int).findSome? (fun rot =>
    let w := if rot == 0 || rot == 180 then rule.width else rule.height
    let h := if rot == 0 || rot == 180 then rule.height else rule.width
    if checkBounds cand.x cand.y w h g floorValue &&
       !(checkItemCollision cand.x cand.y w h placed) &&
       !(rule.blocksDoor && checkDoorBlocking cand.x cand.y w h doors) &&
       facingOk rule cand.x cand.y w h rot placed
    then some ⟨itemType, cand.x, cand.y, w, h, rot⟩
    else none)

/-- The per-item search: preferred zones in order, shuffled candidates of
that zone, four rotations. -/
def searchItem (itemType : String) (rule : FurnitureRule) (doors : List DoorPos)
    (g : Grid) (floorValue : Nat) (placed : List PlacedItem)
    (shuffled : List ZoneCell) : Option PlacedItem :=
  (zonesToTry rule).findSome? (fun zt =>
    (shuffled.filter (fun z => z.ztype == zt)).findSome?
      (tryPlaceAt itemType rule doors g floorValue placed))

def furnitureTile (p : PlacedItem) : TileData :=
  { x := p.x, y := p.y, sprite := p.ptype, rotation := some p.rotation,
    layer := "furniture" }

/-- The main loop of `placeItems` over the sorted request list; returns
the accepted placements, the furniture tiles appended to the map, and the
remaining random stream. -/
def placeItemsGo (doors : List DoorPos) (g : Grid) (floorValue : Nat)
    (zones : List ZoneCell) :
    List String → List PlacedItem → List TileData → List Nat →
    List PlacedItem × List TileData × List Nat
  | [], placed, tiles, s => (placed, tiles, s)
  | itemType :: rest, placed, tiles, s =>
    match rules itemType with
    | none => placeItemsGo doors g floorValue zones rest placed tiles s
    | some rule =>
      let sh := shuffleWith zones s
      match searchItem itemType rule doors g floorValue placed sh.1 with
      | some p =>
        placeItemsGo doors g floorValue zones rest (placed ++ [p])
          (tiles ++ [furnitureTile p]) sh.2
      | none => placeItemsGo doors g floorValue zones rest placed tiles sh.2

/-- `ConstraintSolver.placeItems` (door-metadata version). -/
def placeItems (room : RoomData) (items : List String) (g : Grid)
    (floorValue : Nat) (s : List Nat) :
    List PlacedItem × List TileData × List Nat :=
  let zones := calculateZones room g floorValue
  placeItemsGo room.doors g floorValue zones (sortItems items) [] [] s

/-! ### Furnishing and the full pipeline -/

/-- Step 6b of `generate`: furnish every registered room. -/
def furnishRooms (mapRooms : List RoomData) (cfgRooms : List RoomConfig)
    (g : Grid) (tiles : List TileData) (s : List Nat) :
    List TileData × List Nat :=
  mapRooms.foldl
    (fun acc room =>
      match cfgRooms.find? (fun r => r.id == room.id) with
      | some cfg =>
        let out := placeItems room cfg.furniture g FLOOR acc.2
        (acc.1 ++ out.2.1, out.2.2)
      | none => acc)
    (tiles, s)

/-- Step 2 of `generate`: one zero-positioned rect per configured room. -/
def mkRects (cfg : MapConfig) : List Rect :=
  cfg.rooms.map (fun room =>
    let d := getRoomDimensions room
    { x := 0, y := 0, w := d.1, h := d.2, room := room })

/-- Step 3 of `generate`: dispatch on the selected strategy. -/
def layoutRects (cfg : MapConfig) (s : List Nat) : List Rect × List Nat :=
  let allRects := mkRects cfg
  match selectLayout allRects with
  | .spine r => (buildSpineLayout r allRects cfg.width cfg.height, s)
  | .hub r => (buildHubLayout r allRects cfg.width cfg.height, s)
  | .cluster => buildClusterLayout allRects cfg.width cfg.height s

/-- Steps 1–5 of `generate`: layout, rasterize, walls, doors. Returns the
final grid, the room-ownership grid, the room metadata (doors included),
the placed rects and the remaining stream. -/
def generateGrids (cfg : MapConfig) (s : List Nat) :
    Grid × RGrid × List RoomData × List Rect × List Nat :=
  let lay := layoutRects cfg s
  let g0 := mkGrid cfg.width cfg.height TERRAIN
  let rg0 := mkRGrid cfg.width cfg.height
  let ras := rasterize cfg.width cfg.height lay.1 g0 rg0
  let g2 := generateWalls cfg.width.toNat cfg.height.toNat ras.2.1 ras.1
  let gd := generateDoors lay.1 g2 ras.2.2
  (gd.1, ras.2.1, gd.2, lay.1, lay.2)

/-- `StructuredGenerator.generate` (final spine/hub/cluster variant),
parameterized by the ambient random stream. -/
def generate (cfg : MapConfig) (s : List Nat) : MapData :=
  let gg := generateGrids cfg s
  let tiles := generateTiles cfg.width.toNat cfg.height.toNat gg.1 gg.2.1 cfg.rooms
  let fin := furnishRooms gg.2.2.1 cfg.rooms gg.1 tiles gg.2.2.2.2
  { width := cfg.width, height := cfg.height, tiles := fin.1, rooms := gg.2.2.1 }

/-! ### Connection-graph sanitization and repair (`generateMapConfig`) -/

/-- Sanitization step 1: drop connections to non-existent room ids. -/
def sanitizeConnections (rooms : List RoomConfig) : List RoomConfig :=
  let ids := rooms.map (fun r => r.id)
  rooms.map (fun r =>
    { r with connections := r.connections.filter (fun t => ids.contains t) })

/-- The BFS of sanitization step 2, with explicit fuel covering every
iteration of the JS while-loop. -/
def bfsVisited (rooms : List RoomConfig) :
    Nat → List String → List String → List String
  | 0, _, visited => visited
  | fuel + 1, queue, visited =>
    match queue with
    | [] => visited
    | curr :: rest =>
      if visited.contains curr then bfsVisited rooms fuel rest visited
      else
        let conns := ((rooms.find? (fun r => r.id == curr)).map
          (fun r => r.connections)).getD []
        bfsVisited rooms fuel (rest ++ conns) (visited ++ [curr])

/-- Fuel bound: one initial enqueue plus at most every connection of every
room, and one iteration per dequeue. -/
def bfsFuel (rooms : List RoomConfig) : Nat :=
  1 + (rooms.map (fun r => r.connections.length)).sum + rooms.length

/-- Sanitization step 2 of `generateMapConfig`: BFS from the first room
and force-connect every orphan to it (in both directions). -/
def ensureConnectivity (rooms : List RoomConfig) : List RoomConfig :=
  match rooms with
  | [] => []
  | hub0 :: rest =>
    if rest.isEmpty then rooms
    else
      let visited := bfsVisited rooms (bfsFuel rooms) [hub0.id] []
      let orphanIds := ((hub0 :: rest).filter
        (fun r => !(visited.contains r.id))).map (fun r => r.id)
      { hub0 with connections := hub0.connections ++ orphanIds } ::
        rest.map (fun r =>
          if visited.contains r.id then r
          else { r with connections := r.connections ++ [hub0.id] })

/-- The full sanitization phase of `ServerlessGeminiDirector.generateMapConfig`
(connection filtering, then graph repair). -/
def repairRooms (rooms : List RoomConfig) : List RoomConfig :=
  ensureConnectivity (sanitizeConnections rooms)

/-- Reachability in the declared-connection graph: room id `b` is
reachable from id `a` through the `connections` lists. -/
inductive GraphReach (rooms : List RoomConfig) : String → String → Prop
  | refl (a : String) : GraphReach rooms a a
  | step {a b c : String} : GraphReach rooms a b →
      (∃ r ∈ rooms, r.id = b ∧ c ∈ r.connections) → GraphReach rooms a c

/-! ### Grid flood-fill reachability -/

/-- Is a cell value walkable for the flood fill (floor or door)? -/
def walkableVal (v : Nat) : Bool := v == FLOOR || v == DOOR

/-- Does the signed cell lie inside a room's rectangle? -/
def inRoomRect (r : RoomData) (x y : Int) : Prop :=
  r.x ≤ x ∧ x < r.x + r.width ∧ r.y ≤ y ∧ y < r.y + r.height

instance (r : RoomData) (x y : Int) : Decidable (inRoomRect r x y) := by
  unfold inRoomRect; infer_instance

/-- 4-adjacency of signed cells. -/
def adjCell (x y x2 y2 : Int) : Prop :=
  (x2 = x ∧ (y2 = y - 1 ∨ y2 = y + 1)) ∨ (y2 = y ∧ (x2 = x - 1 ∨ x2 = x + 1))

/-- Flood-fill reachability over floor/door cells, seeded at the walkable
cells of the root room. -/
inductive ReachCell (g : Grid) (root : RoomData) : Int → Int → Prop
  | base (x y : Int) : inRoomRect root x y → walkableVal (gridGetI g x y) = true →
      ReachCell g root x y
  | step (x y x2 y2 : Int) : ReachCell g root x y → adjCell x y x2 y2 →
      walkableVal (gridGetI g x2 y2) = true → ReachCell g root x2 y2

instance : Inhabited RoomData :=
  ⟨{ id := "", name := "", rtype := "", x := 0, y := 0, width := 0,
     height := 0, doors := [] }⟩

/-- The reachability invariant claimed by the spec: every output room has
a walkable cell reachable from the root (first-placed) room. -/
def AllRoomsFloodReachable (rooms : List RoomData) (g : Grid) : Prop :=
  ∀ room ∈ rooms, ∃ x y, inRoomRect room x y ∧
    ReachCell g (rooms.headI) x y

/-! ## Helper lemmas -/

theorem intersects_comm (a b : Rect) : a.intersects b = b.intersects a := by
  simp only [Rect.intersects, Rect.right, Rect.bottom]
  by_cases h1 : a.x < b.x + b.w <;> by_cases h2 : a.x + a.w > b.x <;>
    by_cases h3 : a.y < b.y + b.h <;> by_cases h4 : a.y + a.h > b.y <;>
    simp [h1, h2, h3, h4]

theorem checkCollision_eq_false_iff (c : Rect) (placed : List Rect) :
    checkCollision c placed = false ↔
      ∀ o ∈ placed, c.room.id = o.room.id ∨ c.intersects o = false := by
  simp only [checkCollision, List.any_eq_false, Bool.and_eq_true, bne_iff_ne,
    not_and, ne_eq]
  constructor
  · intro h o ho
    rcases eq_or_ne c.room.id o.room.id with he | he
    · exact Or.inl he
    · exact Or.inr (by simpa using h o ho he)
  · intro h o ho hne
    rcases h o ho with he | he
    · exact absurd he hne
    · simp [he]

theorem not_intersects_of_checkCollision_false {c : Rect} {placed : List Rect}
    (h : checkCollision c placed = false) {o : Rect} (ho : o ∈ placed)
    (hid : c.room.id ≠ o.room.id) : c.intersects o = false := by
  rcases (checkCollision_eq_false_iff c placed).1 h o ho with he | he
  · exact absurd he hid
  · exact he

/-! ## Claim C5: the tight snap search -/

/-- The positioned child sits flush against one of the parent's four
edges. -/
def touchesEdge (parent child : Rect) : Prop :=
  child.bottom = parent.y ∨ child.y = parent.bottom ∨
  child.right = parent.x ∨ child.x = parent.right

theorem snapCandidates_touch (parent child : Rect) :
    ∀ pos ∈ snapCandidates parent child,
      touchesEdge parent (child.withPos pos.1 pos.2) := by
  intro pos hpos
  simp only [snapCandidates, List.mem_cons, List.not_mem_nil, or_false] at hpos
  rcases hpos with h | h | h | h | h | h | h | h <;> subst h <;>
    simp [touchesEdge, Rect.withPos, Rect.bottom, Rect.right]

/-- Claim C5 (amended): `findTightSnapPosition` returns only one of its
eight fixed candidates (four edge-centered, four corner-aligned), each
flush against the parent's edge and free of strict collisions with the
obstacle list; it returns `none` exactly when all eight candidates
collide. There is no canvas-bounds check and no shuffling: candidates are
tried in a fixed order, first fit. -/
theorem findTightSnapPosition_spec (parent child : Rect) (obstacles : List Rect) :
    (∀ pos, findTightSnapPosition parent child obstacles = some pos →
      pos ∈ snapCandidates parent child ∧
      touchesEdge parent (child.withPos pos.1 pos.2) ∧
      checkCollision (child.withPos pos.1 pos.2) obstacles = false) ∧
    (findTightSnapPosition parent child obstacles = none ↔
      ∀ pos ∈ snapCandidates parent child,
        checkCollision (child.withPos pos.1 pos.2) obstacles = true) := by
  constructor
  · intro pos h
    have hmem : pos ∈ snapCandidates parent child := List.mem_of_find?_eq_some h
    have hpred := List.find?_some h
    simp only [Bool.not_eq_true'] at hpred
    exact ⟨hmem, snapCandidates_touch parent child pos hmem, hpred⟩
  · unfold findTightSnapPosition
    rw [List.find?_eq_none]
    constructor
    · intro h pos hpos
      have := h pos hpos
      simpa using this
    · intro h pos hpos
      simpa using h pos hpos

def roomP : RoomConfig :=
  { id := "p", name := "P", rtype := "den", connections := [], furniture := [] }

def roomQ : RoomConfig :=
  { id := "q", name := "Q", rtype := "den", connections := [], furniture := [] }

/-- Claim C5 (counterexample): with the parent at the canvas corner the
snap search happily returns a position with negative `y`, i.e. outside
every canvas; the claimed "lies entirely within canvas bounds" is false,
and the returned candidate comes from the fixed 8-candidate list, not a
perimeter scan. -/
theorem findTightSnapPosition_escapes_canvas :
    findTightSnapPosition ⟨0, 0, 4, 4, roomP⟩ ⟨0, 0, 2, 2, roomQ⟩ [] =
      some (1, -2) ∧ (-2 : Int) < 0 := by
  constructor
  · rfl
  · decide

/-- Witness for `findTightSnapPosition_spec` at a concrete call. -/
theorem findTightSnapPosition_spec_witness :
    touchesEdge ⟨0, 0, 4, 4, roomP⟩ ((⟨0, 0, 2, 2, roomQ⟩ : Rect).withPos 1 (-2)) ∧
    checkCollision ((⟨0, 0, 2, 2, roomQ⟩ : Rect).withPos 1 (-2)) [] = false := by
  have h := (findTightSnapPosition_spec ⟨0, 0, 4, 4, roomP⟩ ⟨0, 0, 2, 2, roomQ⟩ []).1
    (1, -2) (by rfl)
  exact ⟨h.2.1, h.2.2⟩

/-! ## Claim C6: the layout strategy selector -/

/-- The spine rule exactly as the spec words it: corridor/hall/passage
match AND (more than one connection OR aspect ratio above 2:1). -/
def claimSpinePred (r : Rect) : Bool :=
  (testAny ["corridor", "hall", "passage"] r.room.rtype ||
   testAny ["corridor", "hall", "passage"] r.room.name) &&
  (decide (1 < r.room.connections.length) ||
   decide (2 * r.h < r.w) || decide (2 * r.w < r.h))

/-- The hub rule as the spec words it. -/
def claimHubPred (r : Rect) : Bool :=
  (testAny ["living", "common", "lobby", "foyer"] r.room.rtype ||
   testAny ["living", "common", "lobby", "foyer"] r.room.name) &&
  decide (2 ≤ r.room.connections.length)

/-- The selector rule as the spec words it. -/
def claimSelect (rects : List Rect) : LayoutChoice :=
  match rects.find? claimSpinePred with
  | some r => .spine r
  | none =>
    match rects.find? claimHubPred with
    | some r => .hub r
    | none => .cluster

def corridorSquare : Rect :=
  ⟨0, 0, 5, 5,
   { id := "cs", name := "X", rtype := "corridor", connections := [],
     furniture := [] }⟩

/-- Claim C6 (counterexample): a square corridor room with no connections.
The spec's rule demands Cluster (corridor matches, but neither the
connection count nor the aspect ratio condition holds); the code selects
Spine because its test has no connection/aspect conjunct at all. -/
theorem selector_ignores_aspect_condition :
    selectLayout [corridorSquare] = .spine corridorSquare ∧
    claimSelect [corridorSquare] = .cluster ∧
    LayoutChoice.spine corridorSquare ≠ .cluster := by
  refine ⟨by decide, by decide, by decide⟩

/-! Stable-sort permutation facts, used for the cluster anchor. -/

theorem insertByAreaDesc_perm (a : Rect) (l : List Rect) :
    List.Perm (insertByAreaDesc a l) (a :: l) := by
  induction l with
  | nil => simp [insertByAreaDesc]
  | cons b t ih =>
    simp only [insertByAreaDesc]
    split
    · exact ((ih.cons b).trans (List.Perm.swap a b t))
    · exact List.Perm.refl _

theorem sortByAreaDesc_perm (l : List Rect) : List.Perm (sortByAreaDesc l) l := by
  induction l with
  | nil => simp [sortByAreaDesc]
  | cons a t ih =>
    exact (insertByAreaDesc_perm a (sortByAreaDesc t)).trans (ih.cons a)

theorem mem_sortByAreaDesc {x : Rect} {l : List Rect} :
    x ∈ sortByAreaDesc l ↔ x ∈ l :=
  (sortByAreaDesc_perm l).mem_iff

/-- The head of the area-descending sort has maximal area. -/
theorem sortByAreaDesc_head_max (l : List Rect) (a : Rect) (t : List Rect)
    (h : sortByAreaDesc l = a :: t) : ∀ x ∈ l, x.area ≤ a.area := by
  induction l generalizing a t with
  | nil => simp [sortByAreaDesc] at h
  | cons b rest ih =>
    intro x hx
    simp only [sortByAreaDesc] at h
    cases hs : sortByAreaDesc rest with
    | nil =>
      rw [hs] at h
      simp only [insertByAreaDesc] at h
      injection h with h1 h2
      subst h1
      have hlen := (sortByAreaDesc_perm rest).length_eq
      rw [hs] at hlen
      simp only [List.length_nil] at hlen
      have hrest : rest = [] := List.length_eq_zero.1 hlen.symm
      subst hrest
      rcases List.mem_cons.1 hx with rfl | hx2
      · exact le_refl _
      · simp at hx2
    | cons c t2 =>
      rw [hs] at h
      simp only [insertByAreaDesc] at h
      by_cases hcb : c.area > b.area
      · rw [if_pos hcb] at h
        injection h with h1 h2
        subst h1
        rcases List.mem_cons.1 hx with rfl | hx2
        · omega
        · exact ih _ t2 hs x hx2
      · rw [if_neg hcb] at h
        injection h with h1 h2
        subst h1
        rcases List.mem_cons.1 hx with rfl | hx2
        · exact le_refl _
        · have := ih _ t2 hs x hx2
          omega

/-- Claim C6 (amended): the selector picks Spine for the first rect whose
type matches `/corridor|hall|passage|gallery/i` or name matches
`/corridor|hall|passage/i` (no connection/aspect condition); else Hub for
the first rect whose type matches `/living|common|lobby|foyer|main/i` or
whose name matches `/living|common|lobby/i`, with at least two
connections; else Cluster, whose anchor is a maximal-area room.
Selection never fails: the result is always one of the three choices. -/
theorem selectLayout_spec (rects : List Rect) :
    (∀ r, rects.find? spinePred = some r →
      selectLayout rects = .spine r ∧ spinePred r = true ∧ r ∈ rects) ∧
    (rects.find? spinePred = none → ∀ r, rects.find? hubPred = some r →
      selectLayout rects = .hub r ∧ hubPred r = true ∧ r ∈ rects) ∧
    (rects.find? spinePred = none → rects.find? hubPred = none →
      selectLayout rects = .cluster) ∧
    (∀ a t, sortByAreaDesc rects = a :: t → ∀ x ∈ rects, x.area ≤ a.area) := by
  refine ⟨?_, ?_, ?_, sortByAreaDesc_head_max rects⟩
  · intro r h
    refine ⟨?_, List.find?_some h, List.mem_of_find?_eq_some h⟩
    simp [selectLayout, h]
  · intro hn r h
    refine ⟨?_, List.find?_some h, List.mem_of_find?_eq_some h⟩
    simp [selectLayout, hn, h]
  · intro hn hh
    simp [selectLayout, hn, hh]

/-- Witness for `selectLayout_spec`: the corridor-typed square is picked
as spine anchor, and on a two-room list the cluster head has maximal
area. -/
theorem selectLayout_spec_witness :
    selectLayout [corridorSquare] = .spine corridorSquare ∧
    spinePred corridorSquare = true ∧ corridorSquare ∈ [corridorSquare] := by
  exact (selectLayout_spec [corridorSquare]).1 corridorSquare (by decide)

/-! ## Layout invariants (claims C2 and C9)

Every strategy only ever appends a rect after `checkCollision` against the
current placed list returns false, so — provided the input room ids are
pairwise distinct — the placed rects are pairwise non-overlapping and all
come from the input rooms. -/

/-- Two placed rects with distinct ids that do not strictly intersect. -/
def NoOverlapPair (a b : Rect) : Prop :=
  a.room.id ≠ b.room.id ∧ a.intersects b = false

/-- The running invariant on the placed list. -/
def RectsOK (rs : List RoomConfig) (placed : List Rect) : Prop :=
  placed.Pairwise NoOverlapPair ∧ ∀ p ∈ placed, p.room ∈ rs

/-- The invariant on a pending queue relative to the placed list. -/
def PendOK (rs : List RoomConfig) (placed pend : List Rect) : Prop :=
  (pend.map (fun r => r.room.id)).Nodup ∧
  (∀ q ∈ pend, ∀ p ∈ placed, p.room.id ≠ q.room.id) ∧
  (∀ q ∈ pend, q.room ∈ rs)

theorem rectsOK_append {rs : List RoomConfig} {placed : List Rect} {c : Rect}
    (h : RectsOK rs placed) (hid : ∀ p ∈ placed, p.room.id ≠ c.room.id)
    (hcol : checkCollision c placed = false) (hmem : c.room ∈ rs) :
    RectsOK rs (placed ++ [c]) := by
  constructor
  · rw [List.pairwise_append]
    refine ⟨h.1, List.pairwise_singleton _ _, ?_⟩
    intro a ha b hb
    simp only [List.mem_singleton] at hb
    have hgoal : NoOverlapPair a c := by
      refine ⟨hid a ha, ?_⟩
      have hcx : c.intersects a = false :=
        not_intersects_of_checkCollision_false hcol ha (fun he => hid a ha he.symm)
      rw [intersects_comm] at hcx
      exact hcx
    exact hb ▸ hgoal
  · intro p hp
    rcases List.mem_append.1 hp with hp | hp
    · exact h.2 p hp
    · simp only [List.mem_singleton] at hp
      exact hp ▸ hmem

theorem pendOK_tail {rs : List RoomConfig} {placed : List Rect} {q : Rect}
    {pend : List Rect} (h : PendOK rs placed (q :: pend)) :
    PendOK rs placed pend := by
  refine ⟨(List.nodup_cons.1 h.1).2, ?_, ?_⟩
  · intro q2 hq2
    exact h.2.1 q2 (List.mem_cons_of_mem _ hq2)
  · intro q2 hq2
    exact h.2.2 q2 (List.mem_cons_of_mem _ hq2)

theorem pendOK_extend {rs : List RoomConfig} {placed : List Rect} {child : Rect}
    {pend : List Rect} (h : PendOK rs placed (child :: pend)) (c : Rect)
    (hc : c.room.id = child.room.id) :
    PendOK rs (placed ++ [c]) pend := by
  have htail := pendOK_tail h
  refine ⟨htail.1, ?_, htail.2.2⟩
  intro q hq p hp
  rcases List.mem_append.1 hp with hp | hp
  · exact htail.2.1 q hq p hp
  · simp only [List.mem_singleton] at hp
    have hgoal : c.room.id ≠ q.room.id := by
      rw [hc]
      intro he
      exact (List.nodup_cons.1 h.1).1 (by
        have hm : q.room.id ∈ pend.map (fun r => r.room.id) :=
          List.mem_map_of_mem _ hq
        rw [← he] at hm
        exact hm)
    exact hp ▸ hgoal

theorem withPos_room (r : Rect) (x y : Int) : (r.withPos x y).room = r.room := rfl

/-- Spine children loop preserves the invariant. -/
theorem spinePlaceChildren_ok (rs : List RoomConfig) (spine : Rect)
    (isH : Bool) :
    ∀ (children : List Rect) (i : Nat) (cur : SpineCursors) (placed : List Rect),
      RectsOK rs placed → PendOK rs placed children →
      RectsOK rs (spinePlaceChildren spine isH children i cur placed)
  | [], _, _, placed, hok, _ => hok
  | child :: rest, i, cur, placed, hok, hpend => by
    rw [spinePlaceChildren]
    by_cases hcol : checkCollision
        (child.withPos (spineChildPos spine isH child i cur).1.1
          (spineChildPos spine isH child i cur).1.2) placed = true
    · simp only [hcol, if_true]
      exact spinePlaceChildren_ok rs spine isH rest (i + 1) _ placed hok
        (pendOK_tail hpend)
    · rw [Bool.not_eq_true] at hcol
      simp only [hcol, Bool.false_eq_true, if_false]
      have hc' : RectsOK rs (placed ++
          [child.withPos (spineChildPos spine isH child i cur).1.1
            (spineChildPos spine isH child i cur).1.2]) :=
        rectsOK_append hok
          (fun p hp => hpend.2.1 child (List.mem_cons_self _ _) p hp)
          hcol (hpend.2.2 child (List.mem_cons_self _ _))
      exact spinePlaceChildren_ok rs spine isH rest (i + 1) _ _ hc'
        (pendOK_extend hpend _ rfl)

theorem snap_checkCollision_false {parent child : Rect} {placed : List Rect}
    {pos : Int × Int} (h : findTightSnapPosition parent child placed = some pos) :
    checkCollision (child.withPos pos.1 pos.2) placed = false := by
  have := List.find?_some h
  simpa using this

/-- The leftover pass preserves the invariant. -/
theorem leftoverPass_ok (rs : List RoomConfig) :
    ∀ (pend placed : List Rect), RectsOK rs placed → PendOK rs placed pend →
      RectsOK rs (leftoverPass pend placed).1
  | [], placed, hok, _ => hok
  | child :: rest, placed, hok, hpend => by
    cases hfind : placed.find? (fun p => child.room.connections.contains p.room.id) with
    | none =>
      simp only [leftoverPass, hfind]
      exact leftoverPass_ok rs rest placed hok (pendOK_tail hpend)
    | some parent =>
      cases hsnap : findTightSnapPosition parent child placed with
      | none =>
        simp only [leftoverPass, hfind, hsnap]
        exact leftoverPass_ok rs rest placed hok (pendOK_tail hpend)
      | some pos =>
        simp only [leftoverPass, hfind, hsnap]
        have hok2 : RectsOK rs (placed ++ [child.withPos pos.1 pos.2]) :=
          rectsOK_append hok
            (fun p hp => hpend.2.1 child (List.mem_cons_self _ _) p hp)
            (snap_checkCollision_false hsnap)
            (hpend.2.2 child (List.mem_cons_self _ _))
        exact leftoverPass_ok rs rest _ hok2 (pendOK_extend hpend _ rfl)

theorem placedHasId_eq_false {placed : List Rect} {rid : String} :
    placedHasId placed rid = false ↔ ∀ p ∈ placed, p.room.id ≠ rid := by
  simp [placedHasId, List.any_eq_false]

/-- The rect pool handed to a strategy: distinct ids, rooms drawn from the
config. -/
def AllRectsOK (rs : List RoomConfig) (allRects : List Rect) : Prop :=
  (allRects.map (fun r => r.room.id)).Nodup ∧ ∀ r ∈ allRects, r.room ∈ rs

theorem allRectsOK_filter {rs : List RoomConfig} {allRects : List Rect}
    (h : AllRectsOK rs allRects) (p : Rect → Bool) :
    AllRectsOK rs (allRects.filter p) := by
  constructor
  · exact ((List.filter_sublist _).map _).nodup h.1
  · intro r hr
    exact h.2 r (List.mem_of_mem_filter hr)

theorem allRectsOK_sort {rs : List RoomConfig} {allRects : List Rect}
    (h : AllRectsOK rs allRects) :
    AllRectsOK rs (sortByAreaDesc allRects) := by
  constructor
  · exact (((sortByAreaDesc_perm allRects).map _).nodup_iff).2 h.1
  · intro r hr
    exact h.2 r (mem_sortByAreaDesc.1 hr)

/-- The leftover loop preserves the invariant. -/
theorem placeLeftoversLoop_ok (rs : List RoomConfig) (allRects : List Rect)
    (hall : AllRectsOK rs allRects) :
    ∀ (fuel stuck : Nat) (placed : List Rect), RectsOK rs placed →
      RectsOK rs (placeLeftoversLoop allRects fuel stuck placed)
  | 0, _, placed, hok => hok
  | fuel + 1, stuck, placed, hok => by
    rw [placeLeftoversLoop]
    by_cases hcond : (decide (placed.length < allRects.length) &&
        decide (stuck < 50)) = true
    · rw [if_pos hcond]
      by_cases hemp :
          (allRects.filter (fun r => !placedHasId placed r.room.id)).isEmpty = true
      · simp only [hemp, if_true]
        exact hok
      · simp only [hemp, Bool.false_eq_true, if_false]
        have hpend : PendOK rs placed
            (allRects.filter (fun r => !placedHasId placed r.room.id)) := by
          have hf := allRectsOK_filter hall (fun r => !placedHasId placed r.room.id)
          refine ⟨hf.1, ?_, hf.2⟩
          intro q hq p hp
          have hcondq := List.of_mem_filter hq
          rw [Bool.not_eq_eq_eq_not, Bool.not_true] at hcondq
          exact placedHasId_eq_false.1 hcondq p hp
        have hok2 := leftoverPass_ok rs _ placed hok hpend
        exact placeLeftoversLoop_ok rs allRects hall fuel _ _ hok2
    · rw [Bool.not_eq_true] at hcond
      rw [hcond]
      exact hok

theorem placeLeftovers_ok {rs : List RoomConfig} {allRects placed : List Rect}
    (hall : AllRectsOK rs allRects) (hok : RectsOK rs placed) :
    RectsOK rs (placeLeftovers allRects placed) :=
  placeLeftoversLoop_ok rs allRects hall _ _ placed hok

/-- Hub children loop preserves the invariant. -/
theorem hubPlaceChildren_ok (rs : List RoomConfig) (hub : Rect) :
    ∀ (children placed : List Rect), RectsOK rs placed →
      PendOK rs placed children →
      RectsOK rs (hubPlaceChildren hub children placed)
  | [], placed, hok, _ => hok
  | child :: rest, placed, hok, hpend => by
    cases hsnap : findTightSnapPosition hub child placed with
    | none =>
      simp only [hubPlaceChildren, hsnap]
      exact hubPlaceChildren_ok rs hub rest placed hok (pendOK_tail hpend)
    | some pos =>
      simp only [hubPlaceChildren, hsnap]
      have hok2 : RectsOK rs (placed ++ [child.withPos pos.1 pos.2]) :=
        rectsOK_append hok
          (fun p hp => hpend.2.1 child (List.mem_cons_self _ _) p hp)
          (snap_checkCollision_false hsnap)
          (hpend.2.2 child (List.mem_cons_self _ _))
      exact hubPlaceChildren_ok rs hub rest _ hok2 (pendOK_extend hpend _ rfl)

theorem tryParents_some {child : Rect} {placed : List Rect} {c2 : Rect} :
    ∀ {parents : List Rect}, tryParents parents child placed = some c2 →
      c2.room = child.room ∧ checkCollision c2 placed = false
  | [], h => by simp [tryParents] at h
  | parent :: rest, h => by
    revert h
    cases hsnap : findTightSnapPosition parent child placed with
    | none =>
      simp only [tryParents, hsnap]
      exact fun h => tryParents_some h
    | some pos =>
      simp only [tryParents, hsnap, Option.some.injEq]
      intro h
      subst h
      exact ⟨rfl, snap_checkCollision_false hsnap⟩

/-- Cluster queue loop preserves the invariant. -/
theorem clusterPlace_ok (rs : List RoomConfig) :
    ∀ (queue placed : List Rect) (s : List Nat), RectsOK rs placed →
      PendOK rs placed queue →
      RectsOK rs (clusterPlace queue placed s).1
  | [], placed, s, hok, _ => hok
  | child :: rest, placed, s, hok, hpend => by
    cases htry : tryParents (shuffleWith placed s).1 child placed with
    | none =>
      simp only [clusterPlace, htry]
      exact clusterPlace_ok rs rest placed _ hok (pendOK_tail hpend)
    | some c2 =>
      simp only [clusterPlace, htry]
      obtain ⟨hroom, hcol⟩ := tryParents_some htry
      have hok2 : RectsOK rs (placed ++ [c2]) :=
        rectsOK_append hok
          (fun p hp => by
            rw [hroom]
            exact hpend.2.1 child (List.mem_cons_self _ _) p hp)
          hcol
          (by rw [hroom]; exact hpend.2.2 child (List.mem_cons_self _ _))
      exact clusterPlace_ok rs rest _ _ hok2
        (pendOK_extend hpend _ (by rw [hroom]))

/-! Inversion of the selector. -/

theorem selectLayout_spine_inv {l : List Rect} {r : Rect}
    (h : selectLayout l = .spine r) : l.find? spinePred = some r := by
  unfold selectLayout at h
  cases h1 : l.find? spinePred with
  | some r2 =>
    rw [h1] at h
    cases h
    rfl
  | none =>
    rw [h1] at h
    cases h2 : l.find? hubPred with
    | some r2 => rw [h2] at h; cases h
    | none => rw [h2] at h; cases h

theorem selectLayout_hub_inv {l : List Rect} {r : Rect}
    (h : selectLayout l = .hub r) : l.find? hubPred = some r := by
  unfold selectLayout at h
  cases h1 : l.find? spinePred with
  | some r2 => rw [h1] at h; cases h
  | none =>
    rw [h1] at h
    cases h2 : l.find? hubPred with
    | some r2 =>
      rw [h2] at h
      cases h
      rfl
    | none => rw [h2] at h; cases h

theorem mkRects_ids (cfg : MapConfig) :
    (mkRects cfg).map (fun r => r.room.id) = cfg.rooms.map (fun r => r.id) := by
  simp [mkRects, List.map_map]

theorem mkRects_room_mem {cfg : MapConfig} {r : Rect} (h : r ∈ mkRects cfg) :
    r.room ∈ cfg.rooms := by
  simp only [mkRects, List.mem_map] at h
  obtain ⟨room, hroom, rfl⟩ := h
  exact hroom

theorem mkRects_allOK {cfg : MapConfig}
    (h : (cfg.rooms.map (fun r => r.id)).Nodup) :
    AllRectsOK cfg.rooms (mkRects cfg) := by
  constructor
  · rw [mkRects_ids]
    exact h
  · intro r hr
    exact mkRects_room_mem hr

/-! The three strategies preserve the invariant. -/

theorem buildSpineLayout_ok {rs : List RoomConfig} {spine0 : Rect}
    {allRects : List Rect} {mapW mapH : Int} (hall : AllRectsOK rs allRects)
    (hmem : spine0.room ∈ rs) :
    RectsOK rs (buildSpineLayout spine0 allRects mapW mapH) := by
  unfold buildSpineLayout
  apply placeLeftovers_ok hall
  apply spinePlaceChildren_ok
  · exact ⟨List.pairwise_singleton _ _, by
      intro p hp
      simp only [List.mem_singleton] at hp
      exact hp ▸ hmem⟩
  · have hf := allRectsOK_sort (allRectsOK_filter hall
      (fun r => r.room.id != spine0.room.id &&
        spine0.room.connections.contains r.room.id))
    refine ⟨hf.1, ?_, hf.2⟩
    intro q hq p hp
    simp only [List.mem_singleton] at hp
    have hcond := List.of_mem_filter (mem_sortByAreaDesc.1 hq)
    have hne : q.room.id ≠ spine0.room.id := by
      simpa using (Bool.and_elim_left hcond)
    subst hp
    exact fun he => hne he.symm

theorem buildHubLayout_ok {rs : List RoomConfig} {hub0 : Rect}
    {allRects : List Rect} {mapW mapH : Int} (hall : AllRectsOK rs allRects)
    (hmem : hub0.room ∈ rs) :
    RectsOK rs (buildHubLayout hub0 allRects mapW mapH) := by
  unfold buildHubLayout
  apply placeLeftovers_ok hall
  apply hubPlaceChildren_ok
  · exact ⟨List.pairwise_singleton _ _, by
      intro p hp
      simp only [List.mem_singleton] at hp
      exact hp ▸ hmem⟩
  · have hf := allRectsOK_filter hall
      (fun r => r.room.id != hub0.room.id &&
        hub0.room.connections.contains r.room.id)
    refine ⟨hf.1, ?_, hf.2⟩
    intro q hq p hp
    simp only [List.mem_singleton] at hp
    have hcond := List.of_mem_filter hq
    have hne : q.room.id ≠ hub0.room.id := by
      simpa using (Bool.and_elim_left hcond)
    subst hp
    exact fun he => hne he.symm

theorem buildClusterLayout_ok {rs : List RoomConfig} {allRects : List Rect}
    {mapW mapH : Int} {s : List Nat} (hall : AllRectsOK rs allRects) :
    RectsOK rs (buildClusterLayout allRects mapW mapH s).1 := by
  unfold buildClusterLayout
  cases hs : sortByAreaDesc allRects with
  | nil => exact ⟨List.Pairwise.nil, by intro p hp; simp at hp⟩
  | cons anchor0 rest =>
    simp only
    have hmem0 : anchor0.room ∈ rs := by
      apply hall.2
      apply mem_sortByAreaDesc.1
      rw [hs]
      exact List.mem_cons_self _ _
    apply clusterPlace_ok
    · exact ⟨List.pairwise_singleton _ _, by
        intro p hp
        simp only [List.mem_singleton] at hp
        exact hp ▸ hmem0⟩
    · have hsorted := allRectsOK_sort hall
      rw [hs] at hsorted
      have hf := allRectsOK_filter hsorted (fun r => r.room.id != anchor0.room.id)
      refine ⟨?_, ?_, ?_⟩
      · exact hf.1
      · intro q hq p hp
        simp only [List.mem_singleton] at hp
        have hcond := List.of_mem_filter hq
        have hne : q.room.id ≠ anchor0.room.id := by simpa using hcond
        subst hp
        exact fun he => hne he.symm
      · exact hf.2

/-- The layout phase output is pairwise non-overlapping (distinct ids)
and drawn from the configured rooms. -/
theorem layoutRects_ok (cfg : MapConfig) (s : List Nat)
    (h : (cfg.rooms.map (fun r => r.id)).Nodup) :
    RectsOK cfg.rooms (layoutRects cfg s).1 := by
  have hall := mkRects_allOK h
  cases hsel : selectLayout (mkRects cfg) with
  | spine r =>
    have hr : r ∈ mkRects cfg :=
      List.mem_of_find?_eq_some (selectLayout_spine_inv hsel)
    simp only [layoutRects, hsel]
    exact buildSpineLayout_ok hall (mkRects_room_mem hr)
  | hub r =>
    have hr : r ∈ mkRects cfg :=
      List.mem_of_find?_eq_some (selectLayout_hub_inv hsel)
    simp only [layoutRects, hsel]
    exact buildHubLayout_ok hall (mkRects_room_mem hr)
  | cluster =>
    simp only [layoutRects, hsel]
    exact buildClusterLayout_ok hall

/-! Bounds transfer: the door carver edits only the `doors` metadata, so
the output `RoomData` bounds are exactly the placed rect bounds. -/

/-- Identity and bounds of a room, the part of `RoomData` the door carver
never touches. -/
structure BoundsQ where
  id : String
  x : Int
  y : Int
  w : Int
  h : Int
deriving Repr, DecidableEq

def roomBounds (r : RoomData) : BoundsQ := ⟨r.id, r.x, r.y, r.width, r.height⟩

def rectBounds (r : Rect) : BoundsQ := ⟨r.room.id, r.x, r.y, r.w, r.h⟩

theorem rasterize_foldl_rooms (W H : Int) :
    ∀ (l : List (Nat × Rect)) (acc : Grid × RGrid × List RoomData),
      (l.foldl (rasterStep W H) acc).2.2 =
        acc.2.2 ++ l.map (fun ir => rectToRoomData ir.2)
  | [], acc => by simp
  | ir :: rest, acc => by
    rw [List.foldl_cons, rasterize_foldl_rooms W H rest]
    simp [rasterStep]

theorem rasterize_rooms (W H : Int) (placed : List Rect) (g : Grid) (rg : RGrid) :
    (rasterize W H placed g rg).2.2 = placed.map rectToRoomData := by
  rw [rasterize, rasterize_foldl_rooms]
  simp only [List.nil_append]
  rw [show (fun ir : Nat × Rect => rectToRoomData ir.2) =
    rectToRoomData ∘ Prod.snd from rfl]
  rw [← List.map_map, List.enum_map_snd]

theorem addDoorMeta_map_bounds (rooms : List RoomData) (rid : String) (x y : Int) :
    (addDoorMeta rooms rid x y).map roomBounds = rooms.map roomBounds := by
  induction rooms with
  | nil => rfl
  | cons r rest ih =>
    simp only [addDoorMeta]
    by_cases hid : (r.id == rid) = true
    · simp only [hid, if_true]
      by_cases hdup : (r.doors.any (fun d => d.x == x && d.y == y)) = true
      · simp [hdup]
      · simp only [Bool.not_eq_true] at hdup
        simp [hdup, roomBounds]
    · simp only [Bool.not_eq_true] at hid
      simp [hid, ih]

theorem carveDoor_map_bounds (rA rB : Rect) (g : Grid) (rooms : List RoomData) :
    ((carveDoor rA rB g rooms).2).map roomBounds = rooms.map roomBounds := by
  simp only [carveDoor]
  split
  all_goals (try split)
  all_goals (try split)
  all_goals (try split)
  all_goals simp [addDoorMeta_map_bounds]

theorem doorConnFold_bounds (placed : List Rect) (rA : Rect) :
    ∀ (conns : List String) (acc : Grid × List RoomData),
      ((conns.foldl (doorConnStep placed rA) acc).2).map roomBounds =
        acc.2.map roomBounds
  | [], _ => rfl
  | connId :: rest, acc => by
    rw [List.foldl_cons, doorConnFold_bounds placed rA rest]
    unfold doorConnStep
    cases placed.find? (fun p => p.room.id == connId) with
    | some rB => exact carveDoor_map_bounds rA rB acc.1 acc.2
    | none => rfl

theorem generateDoors_foldl_bounds (placed : List Rect) :
    ∀ (l : List Rect) (acc : Grid × List RoomData),
      ((l.foldl (doorRectStep placed) acc).2).map roomBounds =
        acc.2.map roomBounds
  | [], _ => rfl
  | rA :: rest, acc => by
    rw [List.foldl_cons, generateDoors_foldl_bounds placed rest]
    exact doorConnFold_bounds placed rA _ acc

theorem generateDoors_map_bounds (placed : List Rect) (g : Grid)
    (rooms : List RoomData) :
    ((generateDoors placed g rooms).2).map roomBounds = rooms.map roomBounds :=
  generateDoors_foldl_bounds placed placed (g, rooms)

/-- The output rooms carry exactly the placed rect ids and bounds. -/
theorem generateGrids_rooms_bounds (cfg : MapConfig) (s : List Nat) :
    ((generateGrids cfg s).2.2.1).map roomBounds =
      ((layoutRects cfg s).1).map rectBounds := by
  show ((generateDoors _ _ _).2).map roomBounds = _
  rw [generateDoors_map_bounds, rasterize_rooms, List.map_map]
  rfl

theorem generate_rooms_eq (cfg : MapConfig) (s : List Nat) :
    (generate cfg s).rooms = (generateGrids cfg s).2.2.1 := rfl

/-! ## Claim C2: no two output rooms overlap -/

/-- Strict-interior disjointness of two room rectangles (touching edges
allowed). -/
def roomsDisjoint (a b : RoomData) : Prop :=
  ¬(a.x < b.x + b.width ∧ b.x < a.x + a.width ∧
    a.y < b.y + b.height ∧ b.y < a.y + a.height)

/-- The same predicate on bare bounds. -/
def bqDisjoint (a b : BoundsQ) : Prop :=
  ¬(a.x < b.x + b.w ∧ b.x < a.x + a.w ∧ a.y < b.y + b.h ∧ b.y < a.y + a.h)

theorem noOverlapPair_to_bq {a b : Rect} (h : NoOverlapPair a b) :
    bqDisjoint (rectBounds a) (rectBounds b) := by
  intro hc
  have ht : a.intersects b = true := by
    simp only [Rect.intersects, Rect.right, Rect.bottom, Bool.and_eq_true,
      decide_eq_true_eq]
    obtain ⟨c1, c2, c3, c4⟩ := hc
    exact ⟨⟨⟨c1, c2⟩, c3⟩, c4⟩
  rw [h.2] at ht
  exact Bool.false_ne_true ht

/-- Claim C2: for every config with pairwise-distinct room ids and every
random stream, no two rooms of the generated map strictly overlap — every
candidate placement is rejected by `checkCollision` if it strictly
intersects an already placed rectangle, so output rooms at most touch. -/
theorem generate_rooms_no_overlap (cfg : MapConfig) (s : List Nat)
    (h : (cfg.rooms.map (fun r => r.id)).Nodup) :
    ((generate cfg s).rooms).Pairwise roomsDisjoint := by
  have hok := layoutRects_ok cfg s h
  have h2 : ((layoutRects cfg s).1).Pairwise
      (fun a b => bqDisjoint (rectBounds a) (rectBounds b)) :=
    hok.1.imp (fun hab => noOverlapPair_to_bq hab)
  have h3 : (((layoutRects cfg s).1).map rectBounds).Pairwise bqDisjoint :=
    (List.pairwise_map).2 h2
  rw [← generateGrids_rooms_bounds cfg s] at h3
  have h4 := (List.pairwise_map).1 h3
  rw [generate_rooms_eq]
  exact h4.imp (fun hab => hab)

def cfgPair : MapConfig :=
  { width := 12, height := 12,
    rooms :=
      [ { id := "a1", name := "Hall", rtype := "corridor", connections := ["a2"],
          furniture := [], width? := some 6, height? := some 2 },
        { id := "a2", name := "Snug", rtype := "bedroom", connections := ["a1"],
          furniture := [], width? := some 4, height? := some 3 } ] }

/-- Witness for `generate_rooms_no_overlap` on a concrete two-room
config. -/
theorem generate_rooms_no_overlap_witness :
    (cfgPair.rooms.map (fun r => r.id)).Nodup ∧
    ((generate cfgPair []).rooms).Pairwise roomsDisjoint :=
  ⟨by decide, generate_rooms_no_overlap cfgPair [] (by decide)⟩

/-! ## Claim C9: no validation, total best-effort output -/

/-- Room-membership part of the invariant alone (no distinct-id
hypothesis needed). -/
def MemOK (rs : List RoomConfig) (l : List Rect) : Prop :=
  ∀ p ∈ l, p.room ∈ rs

theorem memOK_append {rs : List RoomConfig} {l : List Rect} {c : Rect}
    (h : MemOK rs l) (hc : c.room ∈ rs) : MemOK rs (l ++ [c]) := by
  intro p hp
  rcases List.mem_append.1 hp with hp | hp
  · exact h p hp
  · simp only [List.mem_singleton] at hp
    exact hp ▸ hc

theorem spinePlaceChildren_mem (rs : List RoomConfig) (spine : Rect) (isH : Bool) :
    ∀ (children : List Rect) (i : Nat) (cur : SpineCursors) (placed : List Rect),
      MemOK rs placed → MemOK rs children →
      MemOK rs (spinePlaceChildren spine isH children i cur placed)
  | [], _, _, _, hok, _ => hok
  | child :: rest, i, cur, placed, hok, hpend => by
    rw [spinePlaceChildren]
    by_cases hcol : checkCollision
        (child.withPos (spineChildPos spine isH child i cur).1.1
          (spineChildPos spine isH child i cur).1.2) placed = true
    · simp only [hcol, if_true]
      exact spinePlaceChildren_mem rs spine isH rest (i + 1) _ placed hok
        (fun q hq => hpend q (List.mem_cons_of_mem _ hq))
    · rw [Bool.not_eq_true] at hcol
      simp only [hcol, Bool.false_eq_true, if_false]
      exact spinePlaceChildren_mem rs spine isH rest (i + 1) _ _
        (memOK_append hok (hpend child (List.mem_cons_self _ _)))
        (fun q hq => hpend q (List.mem_cons_of_mem _ hq))

theorem leftoverPass_mem (rs : List RoomConfig) :
    ∀ (pend placed : List Rect), MemOK rs placed → MemOK rs pend →
      MemOK rs (leftoverPass pend placed).1
  | [], placed, hok, _ => hok
  | child :: rest, placed, hok, hpend => by
    cases hfind : placed.find? (fun p => child.room.connections.contains p.room.id) with
    | none =>
      simp only [leftoverPass, hfind]
      exact leftoverPass_mem rs rest placed hok
        (fun q hq => hpend q (List.mem_cons_of_mem _ hq))
    | some parent =>
      cases hsnap : findTightSnapPosition parent child placed with
      | none =>
        simp only [leftoverPass, hfind, hsnap]
        exact leftoverPass_mem rs rest placed hok
          (fun q hq => hpend q (List.mem_cons_of_mem _ hq))
      | some pos =>
        simp only [leftoverPass, hfind, hsnap]
        exact leftoverPass_mem rs rest _
          (memOK_append hok (hpend child (List.mem_cons_self _ _)))
          (fun q hq => hpend q (List.mem_cons_of_mem _ hq))

theorem placeLeftoversLoop_mem (rs : List RoomConfig) (allRects : List Rect)
    (hall : MemOK rs allRects) :
    ∀ (fuel stuck : Nat) (placed : List Rect), MemOK rs placed →
      MemOK rs (placeLeftoversLoop allRects fuel stuck placed)
  | 0, _, placed, hok => hok
  | fuel + 1, stuck, placed, hok => by
    rw [placeLeftoversLoop]
    by_cases hcond : (decide (placed.length < allRects.length) &&
        decide (stuck < 50)) = true
    · rw [if_pos hcond]
      by_cases hemp :
          (allRects.filter (fun r => !placedHasId placed r.room.id)).isEmpty = true
      · simp only [hemp, if_true]
        exact hok
      · simp only [hemp, Bool.false_eq_true, if_false]
        have hok2 := leftoverPass_mem rs
          (allRects.filter (fun r => !placedHasId placed r.room.id)) placed hok
          (fun q hq => hall q (List.mem_of_mem_filter hq))
        exact placeLeftoversLoop_mem rs allRects hall fuel _ _ hok2
    · rw [Bool.not_eq_true] at hcond
      rw [hcond]
      exact hok

theorem hubPlaceChildren_mem (rs : List RoomConfig) (hub : Rect) :
    ∀ (children placed : List Rect), MemOK rs placed → MemOK rs children →
      MemOK rs (hubPlaceChildren hub children placed)
  | [], placed, hok, _ => hok
  | child :: rest, placed, hok, hpend => by
    cases hsnap : findTightSnapPosition hub child placed with
    | none =>
      simp only [hubPlaceChildren, hsnap]
      exact hubPlaceChildren_mem rs hub rest placed hok
        (fun q hq => hpend q (List.mem_cons_of_mem _ hq))
    | some pos =>
      simp only [hubPlaceChildren, hsnap]
      exact hubPlaceChildren_mem rs hub rest _
        (memOK_append hok (hpend child (List.mem_cons_self _ _)))
        (fun q hq => hpend q (List.mem_cons_of_mem _ hq))

theorem clusterPlace_mem (rs : List RoomConfig) :
    ∀ (queue placed : List Rect) (s : List Nat), MemOK rs placed →
      MemOK rs queue → MemOK rs (clusterPlace queue placed s).1
  | [], placed, s, hok, _ => hok
  | child :: rest, placed, s, hok, hpend => by
    cases htry : tryParents (shuffleWith placed s).1 child placed with
    | none =>
      simp only [clusterPlace, htry]
      exact clusterPlace_mem rs rest placed _ hok
        (fun q hq => hpend q (List.mem_cons_of_mem _ hq))
    | some c2 =>
      simp only [clusterPlace, htry]
      obtain ⟨hroom, _⟩ := tryParents_some htry
      exact clusterPlace_mem rs rest _ _
        (memOK_append hok (by
          rw [hroom]
          exact hpend child (List.mem_cons_self _ _)))
        (fun q hq => hpend q (List.mem_cons_of_mem _ hq))

/-- Every placed rect of the layout phase carries a configured room; no
input — malformed or not — is ever rejected. -/
theorem layoutRects_mem (cfg : MapConfig) (s : List Nat) :
    MemOK cfg.rooms (layoutRects cfg s).1 := by
  have hall : MemOK cfg.rooms (mkRects cfg) := fun r hr => mkRects_room_mem hr
  cases hsel : selectLayout (mkRects cfg) with
  | spine r =>
    simp only [layoutRects, hsel]
    unfold buildSpineLayout
    apply placeLeftoversLoop_mem _ _ hall
    apply spinePlaceChildren_mem
    · intro p hp
      simp only [List.mem_singleton] at hp
      subst hp
      have hroom : r.room ∈ cfg.rooms := mkRects_room_mem
        (List.mem_of_find?_eq_some (selectLayout_spine_inv hsel))
      exact hroom
    · intro q hq
      exact hall q (List.mem_of_mem_filter (mem_sortByAreaDesc.1 hq))
  | hub r =>
    simp only [layoutRects, hsel]
    unfold buildHubLayout
    apply placeLeftoversLoop_mem _ _ hall
    apply hubPlaceChildren_mem
    · intro p hp
      simp only [List.mem_singleton] at hp
      subst hp
      have hroom : r.room ∈ cfg.rooms := mkRects_room_mem
        (List.mem_of_find?_eq_some (selectLayout_hub_inv hsel))
      exact hroom
    · intro q hq
      exact hall q (List.mem_of_mem_filter hq)
  | cluster =>
    simp only [layoutRects, hsel]
    unfold buildClusterLayout
    cases hs : sortByAreaDesc (mkRects cfg) with
    | nil => intro p hp; simp at hp
    | cons anchor0 rest =>
      simp only
      have hmem0 : anchor0.room ∈ cfg.rooms := by
        apply hall
        apply mem_sortByAreaDesc.1
        rw [hs]
        exact List.mem_cons_self _ _
      apply clusterPlace_mem
      · intro p hp
        simp only [List.mem_singleton] at hp
        exact hp ▸ hmem0
      · intro q hq
        have hq2 : q ∈ sortByAreaDesc (mkRects cfg) := by
          rw [hs]
          exact List.mem_of_mem_filter hq
        exact hall q (mem_sortByAreaDesc.1 hq2)

/-- `new Array(n)` raises `RangeError: Invalid array length` for a
negative length. -/
def arrayLengthInvalid (n : Int) : Bool := decide (n < 0)

/-- `StructuredGenerator.generate` with its one exceptional path made
explicit: the grid allocation `Array(config.height).fill(0).map(() =>
Array(config.width).fill(TERRAIN))` runs before any layout and throws
`RangeError` when the canvas height is negative, or the height is
positive and the width is negative (with height 0 the inner allocation
never runs); on every other input the pure pipeline runs to completion. -/
def generateE (cfg : MapConfig) (s : List Nat) : Except String MapData :=
  if arrayLengthInvalid cfg.height ||
     (decide (0 < cfg.height) && arrayLengthInvalid cfg.width)
  then .error "RangeError: Invalid array length"
  else .ok (generate cfg s)

/-- Claim C9 (amended): the only error `generate` raises is the
`RangeError` of the initial grid allocation, thrown before layout exactly
when the canvas height is negative or the height is positive and the
width negative; it performs no validation of the room list — malformed
rooms (missing fields, non-positive dimensions) are accepted — and on
every input that allocates, it returns a best-effort map whose canvas
matches the config and whose room ids all come from the input rooms. -/
theorem generate_total_best_effort (cfg : MapConfig) (s : List Nat) :
    (0 ≤ cfg.height → 0 ≤ cfg.width →
      generateE cfg s = .ok (generate cfg s)) ∧
    (cfg.height < 0 ∨ (0 < cfg.height ∧ cfg.width < 0) →
      generateE cfg s = .error "RangeError: Invalid array length") ∧
    (generate cfg s).width = cfg.width ∧ (generate cfg s).height = cfg.height ∧
    ∀ r ∈ (generate cfg s).rooms, r.id ∈ cfg.rooms.map (fun c => c.id) := by
  refine ⟨?_, ?_, rfl, rfl, ?_⟩
  · intro h1 h2
    have hc : (arrayLengthInvalid cfg.height ||
        (decide (0 < cfg.height) && arrayLengthInvalid cfg.width)) = false := by
      simp only [arrayLengthInvalid, Bool.or_eq_false_iff, Bool.and_eq_false_iff,
        decide_eq_false_iff_not, not_lt]
      omega
    simp [generateE, hc]
  · intro h
    have hc : (arrayLengthInvalid cfg.height ||
        (decide (0 < cfg.height) && arrayLengthInvalid cfg.width)) = true := by
      rcases h with h | ⟨h1, h2⟩ <;>
        simp only [arrayLengthInvalid, Bool.or_eq_true, Bool.and_eq_true,
          decide_eq_true_eq] <;> omega
    simp [generateE, hc]
  intro r hr
  rw [generate_rooms_eq] at hr
  have hb : roomBounds r ∈ ((generateGrids cfg s).2.2.1).map roomBounds :=
    List.mem_map_of_mem _ hr
  rw [generateGrids_rooms_bounds] at hb
  obtain ⟨p, hp, hpb⟩ := List.mem_map.1 hb
  have hid : p.room.id = r.id := congrArg BoundsQ.id hpb
  have hmem := layoutRects_mem cfg s p hp
  rw [← hid]
  exact List.mem_map_of_mem _ hmem

def cfgMalformed : MapConfig :=
  { width := 10, height := 10,
    rooms :=
      [ { id := "s0", name := "Core", rtype := "corridor", connections := ["bad"],
          furniture := [], width? := some 6, height? := some 2 },
        { id := "bad", name := "Bad", rtype := "den", connections := ["s0"],
          furniture := [], width? := some (-3), height? := some 2 } ] }

/-- Does a room declare a non-positive explicit dimension? -/
def roomHasNonPosDim (room : RoomConfig) : Bool :=
  (match room.width? with | some w => decide (w ≤ 0) | none => false) ||
  (match room.height? with | some h => decide (h ≤ 0) | none => false)

/-- A malformed `RoomGraph` in the sense of the spec's error taxonomy: a
room declares a non-positive dimension. -/
def hasNonPositiveDeclaredDim (cfg : MapConfig) : Prop :=
  ∃ room ∈ cfg.rooms, roomHasNonPosDim room = true

instance (cfg : MapConfig) : Decidable (hasNonPositiveDeclaredDim cfg) := by
  unfold hasNonPositiveDeclaredDim
  infer_instance

/-- Claim C9 (counterexample): a config with a room of declared width −3
is malformed by the spec's taxonomy, yet `generate` raises nothing and
returns a complete map with both rooms laid out — there is no validation
and no rejection before layout. -/
theorem generate_accepts_malformed :
    hasNonPositiveDeclaredDim cfgMalformed ∧
    (generate cfgMalformed []).rooms.length = 2 ∧
    (generate cfgMalformed []).width = 10 := by
  refine ⟨by decide, by decide, rfl⟩

/-! ## Claim C10: one furniture tile per accepted placement -/

theorem placeItemsGo_tiles (doors : List DoorPos) (g : Grid) (fv : Nat)
    (zones : List ZoneCell) :
    ∀ (items : List String) (placed : List PlacedItem) (tiles : List TileData)
      (s : List Nat), tiles = placed.map furnitureTile →
      (placeItemsGo doors g fv zones items placed tiles s).2.1 =
        ((placeItemsGo doors g fv zones items placed tiles s).1).map furnitureTile
  | [], placed, tiles, s, h => h
  | itemType :: rest, placed, tiles, s, h => by
    cases hr : rules itemType with
    | none =>
      simp only [placeItemsGo, hr]
      exact placeItemsGo_tiles doors g fv zones rest placed tiles s h
    | some rule =>
      cases hsearch : searchItem itemType rule doors g fv placed
          (shuffleWith zones s).1 with
      | none =>
        simp only [placeItemsGo, hr, hsearch]
        exact placeItemsGo_tiles doors g fv zones rest placed tiles _ h
      | some p =>
        simp only [placeItemsGo, hr, hsearch]
        exact placeItemsGo_tiles doors g fv zones rest (placed ++ [p])
          (tiles ++ [furnitureTile p]) _ (by rw [h, List.map_append]; rfl)

/-- Claim C10: for every solver run, the furniture tiles it appends are in
exact one-to-one correspondence with the accepted placements: one tile per
placement, on the `furniture` layer, at the placement's anchor cell, with
the chosen rotation — and nothing for the other footprint cells. -/
theorem placeItems_one_tile_per_placement (room : RoomData) (items : List String)
    (g : Grid) (fv : Nat) (s : List Nat) :
    (placeItems room items g fv s).2.1 =
      ((placeItems room items g fv s).1).map furnitureTile ∧
    ∀ p : PlacedItem, furnitureTile p =
      { x := p.x, y := p.y, sprite := p.ptype, rotation := some p.rotation,
        layer := "furniture" } := by
  constructor
  · exact placeItemsGo_tiles _ _ _ _ _ [] [] s rfl
  · intro p
    rfl

/-! ## Claim C3: solver placement invariants -/

/-- A signed cell lies in a placement's rotated footprint. -/
def inFootprint (p : PlacedItem) (cx cy : Int) : Prop :=
  p.x ≤ cx ∧ cx < p.x + p.width ∧ p.y ≤ cy ∧ cy < p.y + p.height

instance (p : PlacedItem) (cx cy : Int) : Decidable (inFootprint p cx cy) := by
  unfold inFootprint
  infer_instance

/-- Two placements' footprints do not intersect. -/
def itemsDisjoint (p q : PlacedItem) : Prop :=
  ¬(p.x < q.x + q.width ∧ q.x < p.x + p.width ∧
    p.y < q.y + q.height ∧ q.y < p.y + p.height)

/-- An in-bounds grid cell carrying the floor value. -/
def cellIsFloor (g : Grid) (fv : Nat) (cx cy : Int) : Prop :=
  0 ≤ cx ∧ 0 ≤ cy ∧ cx < (((g.getD 0 []).length : Int)) ∧
    cy < ((g.length : Int)) ∧ gridGetI g cx cy = fv

theorem checkBounds_spec {x y w h : Int} {g : Grid} {fv : Nat}
    (hcb : checkBounds x y w h g fv = true) :
    ∀ cx cy : Int, x ≤ cx → cx < x + w → y ≤ cy → cy < y + h →
      cellIsFloor g fv cx cy := by
  intro cx cy h1 h2 h3 h4
  simp only [checkBounds, List.all_eq_true, List.mem_range] at hcb
  have hdx : (cx - x).toNat < w.toNat := by omega
  have hdy : (cy - y).toNat < h.toNat := by omega
  have := hcb (cy - y).toNat hdy (cx - x).toNat hdx
  rw [Bool.and_eq_true] at this
  obtain ⟨hb, hfv⟩ := this
  rw [Bool.not_eq_eq_eq_not, Bool.not_true] at hb
  simp only [Bool.or_eq_false_iff, decide_eq_false_iff_not, not_lt, not_le] at hb
  have hex : x + ((cx - x).toNat : Int) = cx := by omega
  have hey : y + ((cy - y).toNat : Int) = cy := by omega
  rw [hex, hey] at hb hfv
  refine ⟨by omega, by omega, by omega, by omega, ?_⟩
  exact of_decide_eq_true hfv

theorem checkItemCollision_spec {x y w h : Int} {placed : List PlacedItem}
    (hc : checkItemCollision x y w h placed = false) :
    ∀ q ∈ placed,
      ¬(x < q.x + q.width ∧ q.x < x + w ∧ y < q.y + q.height ∧ q.y < y + h) := by
  intro q hq
  simp only [checkItemCollision, List.any_eq_false] at hc
  have := hc q hq
  simp only [Bool.and_eq_true, decide_eq_true_eq] at this
  intro ⟨c1, c2, c3, c4⟩
  exact this ⟨⟨⟨c1, c2⟩, c3⟩, c4⟩

theorem checkDoorBlocking_spec {x y w h : Int} {doors : List DoorPos}
    (hc : checkDoorBlocking x y w h doors = false) :
    ∀ d ∈ doors, ¬(x ≤ d.x ∧ d.x < x + w ∧ y ≤ d.y ∧ d.y < y + h) := by
  intro d hd
  simp only [checkDoorBlocking, List.any_eq_false] at hc
  have := hc d hd
  simp only [Bool.and_eq_true, decide_eq_true_eq] at this
  intro ⟨c1, c2, c3, c4⟩
  exact this ⟨⟨⟨c1, c2⟩, c3⟩, c4⟩

/-- What an accepted candidate guarantees. -/
theorem tryPlaceAt_spec {itemType : String} {rule : FurnitureRule}
    {doors : List DoorPos} {g : Grid} {fv : Nat} {placed : List PlacedItem}
    {cand : ZoneCell} {p : PlacedItem}
    (h : tryPlaceAt itemType rule doors g fv placed cand = some p) :
    p.ptype = itemType ∧
    checkBounds p.x p.y p.width p.height g fv = true ∧
    checkItemCollision p.x p.y p.width p.height placed = false ∧
    (rule.blocksDoor = true →
      checkDoorBlocking p.x p.y p.width p.height doors = false) := by
  obtain ⟨rot, _, hrot⟩ := List.exists_of_findSome?_eq_some h
  revert hrot
  simp only []
  split <;> split <;> intro he
  · rename_i hpar hcond
    injection he with he
    subst he
    simp only [Bool.and_eq_true, Bool.not_eq_true'] at hcond
    refine ⟨rfl, hcond.1.1.1, hcond.1.1.2, ?_⟩
    intro hbd
    have hx := hcond.1.2
    rw [hbd] at hx
    simpa using hx
  · exact Option.noConfusion he
  · rename_i hpar hcond
    injection he with he
    subst he
    simp only [Bool.and_eq_true, Bool.not_eq_true'] at hcond
    refine ⟨rfl, hcond.1.1.1, hcond.1.1.2, ?_⟩
    intro hbd
    have hx := hcond.1.2
    rw [hbd] at hx
    simpa using hx
  · exact Option.noConfusion he

/-- What a successful per-item search guarantees. -/
theorem searchItem_spec {itemType : String} {rule : FurnitureRule}
    {doors : List DoorPos} {g : Grid} {fv : Nat} {placed : List PlacedItem}
    {shuffled : List ZoneCell} {p : PlacedItem}
    (h : searchItem itemType rule doors g fv placed shuffled = some p) :
    p.ptype = itemType ∧
    checkBounds p.x p.y p.width p.height g fv = true ∧
    checkItemCollision p.x p.y p.width p.height placed = false ∧
    (rule.blocksDoor = true →
      checkDoorBlocking p.x p.y p.width p.height doors = false) := by
  obtain ⟨zt, _, hzt⟩ := List.exists_of_findSome?_eq_some h
  obtain ⟨cand, _, hcand⟩ := List.exists_of_findSome?_eq_some hzt
  exact tryPlaceAt_spec hcand

/-- The solver's running invariant. -/
def SolverOK (doors : List DoorPos) (g : Grid) (fv : Nat)
    (placed : List PlacedItem) : Prop :=
  placed.Pairwise itemsDisjoint ∧
  (∀ p ∈ placed, ∀ cx cy : Int, inFootprint p cx cy → cellIsFloor g fv cx cy) ∧
  (∀ p ∈ placed, ∀ rule, rules p.ptype = some rule → rule.blocksDoor = true →
    ∀ d ∈ doors, ¬ inFootprint p d.x d.y)

theorem solverOK_append {doors : List DoorPos} {g : Grid} {fv : Nat}
    {placed : List PlacedItem} {p : PlacedItem} {rule : FurnitureRule}
    (h : SolverOK doors g fv placed) (hrule : rules p.ptype = some rule)
    (hcb : checkBounds p.x p.y p.width p.height g fv = true)
    (hcol : checkItemCollision p.x p.y p.width p.height placed = false)
    (hdoor : rule.blocksDoor = true →
      checkDoorBlocking p.x p.y p.width p.height doors = false) :
    SolverOK doors g fv (placed ++ [p]) := by
  refine ⟨?_, ?_, ?_⟩
  · rw [List.pairwise_append]
    refine ⟨h.1, List.pairwise_singleton _ _, ?_⟩
    intro a ha b hb
    simp only [List.mem_singleton] at hb
    subst hb
    have := checkItemCollision_spec hcol a ha
    intro ⟨c1, c2, c3, c4⟩
    exact this ⟨c2, c1, c4, c3⟩
  · intro q hq cx cy hf
    rcases List.mem_append.1 hq with hq | hq
    · exact h.2.1 q hq cx cy hf
    · simp only [List.mem_singleton] at hq
      subst hq
      obtain ⟨f1, f2, f3, f4⟩ := hf
      exact checkBounds_spec hcb cx cy f1 f2 f3 f4
  · intro q hq rule2 hr2 hbd d hd
    rcases List.mem_append.1 hq with hq | hq
    · exact h.2.2 q hq rule2 hr2 hbd d hd
    · simp only [List.mem_singleton] at hq
      subst hq
      rw [hrule] at hr2
      injection hr2 with hr2
      subst hr2
      have := checkDoorBlocking_spec (hdoor hbd) d hd
      intro ⟨c1, c2, c3, c4⟩
      exact this ⟨c1, c2, c3, c4⟩

theorem placeItemsGo_ok (doors : List DoorPos) (g : Grid) (fv : Nat)
    (zones : List ZoneCell) :
    ∀ (items : List String) (placed : List PlacedItem) (tiles : List TileData)
      (s : List Nat), SolverOK doors g fv placed →
      SolverOK doors g fv (placeItemsGo doors g fv zones items placed tiles s).1
  | [], _, _, _, h => h
  | itemType :: rest, placed, tiles, s, h => by
    cases hr : rules itemType with
    | none =>
      simp only [placeItemsGo, hr]
      exact placeItemsGo_ok doors g fv zones rest placed tiles s h
    | some rule =>
      cases hsearch : searchItem itemType rule doors g fv placed
          (shuffleWith zones s).1 with
      | none =>
        simp only [placeItemsGo, hr, hsearch]
        exact placeItemsGo_ok doors g fv zones rest placed tiles _ h
      | some p =>
        simp only [placeItemsGo, hr, hsearch]
        obtain ⟨hpt, hcb, hcol, hdoor⟩ := searchItem_spec hsearch
        have hrule : rules p.ptype = some rule := by rw [hpt]; exact hr
        exact placeItemsGo_ok doors g fv zones rest _ _ _
          (solverOK_append h hrule hcb hcol hdoor)

/-- Claim C3 (amended): for every solver run, the accepted placements are
pairwise non-overlapping; every footprint cell is an in-bounds grid cell
holding the floor value (the solver checks only the grid value, not
membership in the room's rectangle — footprints may extend past the room
where neighboring floor is not walled off); and no placement whose rule
blocks doors covers any of the room's listed door cells. -/
theorem placeItems_invariants (room : RoomData) (items : List String)
    (g : Grid) (fv : Nat) (s : List Nat) :
    ((placeItems room items g fv s).1).Pairwise itemsDisjoint ∧
    (∀ p ∈ (placeItems room items g fv s).1, ∀ cx cy : Int,
      inFootprint p cx cy → cellIsFloor g fv cx cy) ∧
    (∀ p ∈ (placeItems room items g fv s).1, ∀ rule,
      rules p.ptype = some rule → rule.blocksDoor = true →
      ∀ d ∈ room.doors, ¬ inFootprint p d.x d.y) := by
  have h := placeItemsGo_ok room.doors g fv
    (calculateZones room g fv) (sortItems items) [] [] s
    ⟨List.Pairwise.nil, by simp, by simp⟩
  exact h

def roomZ : RoomData :=
  { id := "z", name := "Z", rtype := "den", x := 0, y := 0, width := 2,
    height := 2, doors := [] }

def gridZ : Grid := [[1, 1, 1], [1, 1, 1], [1, 1, 1]]

/-- Claim C3 (counterexample): on a 3×3 all-floor grid, the solver
furnishing the 2×2 room at the origin accepts a 2×2 table anchored at
(1, 1): its footprint covers (2, 2), a cell outside the room's rectangle —
"every footprint cell is a floor cell of that room" is false as stated. -/
theorem placeItems_escapes_room :
    (placeItems roomZ ["table"] gridZ 1 []).1 =
      [{ ptype := "table", x := 1, y := 1, width := 2, height := 2, rotation := 0 }] ∧
    inFootprint
      { ptype := "table", x := 1, y := 1, width := 2, height := 2, rotation := 0 }
      2 2 ∧
    ¬ inRoomRect roomZ 2 2 := by
  refine ⟨by decide, by decide, by decide⟩

/-! ## Claim C8: the wall pass -/

theorem gridGet_gridSet_ne {g : Grid} {x y x2 y2 : Nat} {v : Nat}
    (hne : (x2, y2) ≠ (x, y)) :
    gridGet (gridSet g x y v) x2 y2 = gridGet g x2 y2 := by
  unfold gridGet gridSet
  simp only [List.getD_eq_getElem?_getD]
  by_cases hy : y2 = y
  · subst hy
    have hx : x2 ≠ x := by
      intro hx
      exact hne (by rw [hx])
    by_cases hylen : y2 < g.length
    · rw [List.getElem?_set_self hylen]
      simp only [Option.getD_some]
      rw [List.getElem?_set_ne (fun h => hx h.symm)]
    · have hnone : g[y2]? = none := List.getElem?_eq_none (by omega)
      have hnone2 : (g.set y2 ((g[y2]?.getD []).set x v))[y2]? = none :=
        List.getElem?_eq_none (by rw [List.length_set]; omega)
      rw [hnone2, hnone]
  · rw [List.getElem?_set_ne (fun h => hy h.symm)]

/-- The written cell afterwards holds the value, or (out of bounds) is
unchanged. -/
theorem gridGet_gridSet_self_or (g : Grid) (x y v : Nat) :
    gridGet (gridSet g x y v) x y = v ∨
    gridGet (gridSet g x y v) x y = gridGet g x y := by
  unfold gridGet gridSet
  simp only [List.getD_eq_getElem?_getD]
  by_cases hy : y < g.length
  · rw [List.getElem?_set_self hy]
    simp only [Option.getD_some]
    by_cases hx : x < (g[y]?.getD []).length
    · left
      rw [List.getElem?_set_self hx]
      rfl
    · right
      have h1 : ((g[y]?.getD []).set x v)[x]? = none :=
        List.getElem?_eq_none (by rw [List.length_set]; omega)
      have h2 : (g[y]?.getD [])[x]? = none := List.getElem?_eq_none (by omega)
      rw [h1, h2]
  · right
    have h1 : (g.set y ((g[y]?.getD []).set x v))[y]? = none :=
      List.getElem?_eq_none (by rw [List.length_set]; omega)
    have h2 : g[y]? = none := List.getElem?_eq_none (by omega)
    rw [h1, h2]

theorem wallStep_cases (W H : Nat) (rg : RGrid) (g : Grid) (c : Nat × Nat) :
    wallStep W H rg g c = g ∨
    (gridGet g c.1 c.2 = FLOOR ∧
      wallStep W H rg g c = gridSet g c.1 c.2 WALL) := by
  unfold wallStep
  by_cases hf : (gridGet g c.1 c.2 == FLOOR) = true
  · rw [if_pos hf]
    by_cases ht : wallTrigger W H rg g c.1 c.2 = true
    · rw [if_pos ht]
      exact Or.inr ⟨by simpa using hf, rfl⟩
    · rw [if_neg ht]
      exact Or.inl rfl
  · rw [if_neg hf]
    exact Or.inl rfl

theorem wallStep_skip {W H : Nat} {rg : RGrid} {g : Grid} {c : Nat × Nat}
    (h : gridGet g c.1 c.2 ≠ FLOOR) : wallStep W H rg g c = g := by
  rcases wallStep_cases W H rg g c with hc | hc
  · exact hc
  · exact absurd hc.1 h

theorem wallStep_get_ne {W H : Nat} {rg : RGrid} {g : Grid} {c : Nat × Nat}
    {x y : Nat} (hne : (x, y) ≠ c) :
    gridGet (wallStep W H rg g c) x y = gridGet g x y := by
  rcases wallStep_cases W H rg g c with hc | hc
  · rw [hc]
  · rw [hc.2]
    exact gridGet_gridSet_ne hne

/-- Cells that are not `FLOOR` are never touched by the wall pass. -/
theorem wallsFold_nonfloor (W H : Nat) (rg : RGrid) :
    ∀ (cells : List (Nat × Nat)) (g : Grid) (x y : Nat),
      gridGet g x y ≠ FLOOR →
      gridGet (cells.foldl (wallStep W H rg) g) x y = gridGet g x y
  | [], _, _, _, _ => rfl
  | c :: rest, g, x, y, h => by
    rw [List.foldl_cons]
    by_cases hc : (x, y) = c
    · subst hc
      rw [wallStep_skip h]
      exact wallsFold_nonfloor W H rg rest g x y h
    · have hstep := @wallStep_get_ne W H rg g c x y hc
      rw [wallsFold_nonfloor W H rg rest _ x y (by rw [hstep]; exact h), hstep]

/-- Any cell the wall pass changes is changed to `WALL`. -/
theorem wallsFold_changed_wall (W H : Nat) (rg : RGrid) :
    ∀ (cells : List (Nat × Nat)) (g : Grid) (x y : Nat),
      gridGet (cells.foldl (wallStep W H rg) g) x y ≠ gridGet g x y →
      gridGet (cells.foldl (wallStep W H rg) g) x y = WALL
  | [], _, _, _, h => absurd rfl h
  | c :: rest, g, x, y, h => by
    rw [List.foldl_cons] at h ⊢
    by_cases hrest : gridGet (rest.foldl (wallStep W H rg) (wallStep W H rg g c)) x y =
        gridGet (wallStep W H rg g c) x y
    · rw [hrest] at h ⊢
      by_cases hc : (x, y) = c
      · subst hc
        rcases wallStep_cases W H rg g (x, y) with hcase | hcase
        · rw [hcase] at h
          exact absurd rfl h
        · rw [hcase.2] at h ⊢
          rcases gridGet_gridSet_self_or g x y WALL with hv | hv
          · exact hv
          · rw [hv] at h
            exact absurd rfl h
      · rw [wallStep_get_ne hc] at h
        exact absurd rfl h
    · exact wallsFold_changed_wall W H rg rest _ x y hrest

/-- Every intermediate value is the original one or `WALL`. -/
theorem wallsFold_orig_or_wall (W H : Nat) (rg : RGrid) (cells : List (Nat × Nat))
    (g : Grid) (x y : Nat) :
    gridGet (cells.foldl (wallStep W H rg) g) x y = gridGet g x y ∨
    gridGet (cells.foldl (wallStep W H rg) g) x y = WALL := by
  by_cases h : gridGet (cells.foldl (wallStep W H rg) g) x y = gridGet g x y
  · exact Or.inl h
  · exact Or.inr (wallsFold_changed_wall W H rg cells g x y h)

/-- A floor cell all of whose in-bounds neighbors originally hold
same-room floor. -/
def interiorSameRoomCell (W H : Nat) (rg : RGrid) (g : Grid) (x y : Nat) : Prop :=
  gridGet g x y = FLOOR ∧
  ∀ d ∈ wallDirs,
    (0 ≤ (x : Int) + d.1 ∧ 0 ≤ (y : Int) + d.2 ∧
     (x : Int) + d.1 < (W : Int) ∧ (y : Int) + d.2 < (H : Int)) →
    gridGet g ((x : Int) + d.1).toNat ((y : Int) + d.2).toNat = FLOOR ∧
    rgridGet rg ((x : Int) + d.1).toNat ((y : Int) + d.2).toNat = rgridGet rg x y

instance (W H : Nat) (rg : RGrid) (g : Grid) (x y : Nat) :
    Decidable (interiorSameRoomCell W H rg g x y) := by
  unfold interiorSameRoomCell
  infer_instance

theorem wallTrigger_interior_false {W H : Nat} {rg : RGrid} {g0 g : Grid}
    {x y : Nat}
    (hint : interiorSameRoomCell W H rg g0 x y)
    (hmix : ∀ a b : Nat, gridGet g a b = gridGet g0 a b ∨ gridGet g a b = WALL) :
    wallTrigger W H rg g x y = false := by
  unfold wallTrigger
  rw [List.any_eq_false]
  intro d hd
  simp only
  by_cases hb : ((x : Int) + d.1 < 0 || (y : Int) + d.2 < 0 ||
      (x : Int) + d.1 ≥ (W : Int) || (y : Int) + d.2 ≥ (H : Int)) = true
  · simp [hb]
  · rw [Bool.not_eq_true] at hb
    simp only [hb, Bool.false_eq_true, if_false]
    have hbounds : 0 ≤ (x : Int) + d.1 ∧ 0 ≤ (y : Int) + d.2 ∧
        (x : Int) + d.1 < (W : Int) ∧ (y : Int) + d.2 < (H : Int) := by
      simp only [Bool.or_eq_false_iff, decide_eq_false_iff_not, not_lt, ge_iff_le,
        not_le] at hb
      omega
    obtain ⟨hnf, hnr⟩ := hint.2 d hd hbounds
    rcases hmix ((x : Int) + d.1).toNat ((y : Int) + d.2).toNat with hv | hv
    · rw [hv, hnf, hnr]
      simp [FLOOR, TERRAIN]
    · rw [hv]
      simp [WALL, TERRAIN, FLOOR]

theorem wallStep_interior_skip {W H : Nat} {rg : RGrid} {g0 g : Grid}
    {x y : Nat}
    (hint : interiorSameRoomCell W H rg g0 x y)
    (hmix : ∀ a b : Nat, gridGet g a b = gridGet g0 a b ∨ gridGet g a b = WALL)
    (hfl : gridGet g x y = FLOOR) :
    wallStep W H rg g (x, y) = g := by
  unfold wallStep
  have ht := wallTrigger_interior_false hint hmix
  simp only [hfl]
  simp [ht]

theorem wallsFold_interior (W H : Nat) (rg : RGrid) (g0 : Grid) (x y : Nat)
    (hint : interiorSameRoomCell W H rg g0 x y) :
    ∀ (cells : List (Nat × Nat)) (g : Grid),
      (∀ a b : Nat, gridGet g a b = gridGet g0 a b ∨ gridGet g a b = WALL) →
      gridGet g x y = FLOOR →
      gridGet (cells.foldl (wallStep W H rg) g) x y = FLOOR
  | [], _, _, hfl => hfl
  | c :: rest, g, hmix, hfl => by
    rw [List.foldl_cons]
    by_cases hc : (x, y) = c
    · rw [← hc, wallStep_interior_skip hint hmix hfl]
      exact wallsFold_interior W H rg g0 x y hint rest g hmix hfl
    · have hstep := @wallStep_get_ne W H rg g c x y hc
      refine wallsFold_interior W H rg g0 x y hint rest _ ?_ (by rw [hstep]; exact hfl)
      intro a b
      by_cases hab : (a, b) = c
      · have ha : a = c.1 := by rw [← hab]
        have hb2 : b = c.2 := by rw [← hab]
        subst ha
        subst hb2
        rcases wallStep_cases W H rg g c with hcase | hcase
        · rw [hcase]
          exact hmix _ _
        · rw [hcase.2]
          rcases gridGet_gridSet_self_or g c.1 c.2 WALL with hv | hv
          · exact Or.inr hv
          · rw [hv]
            exact hmix _ _
      · rw [@wallStep_get_ne W H rg g c a b hab]
        exact hmix a b

/-- Claim C8 (amended): the wall pass never touches non-Floor cells — in
particular Terrain/Background cells adjacent to floor stay Background; a
cell it does change becomes `WALL` (and only Floor cells are changed); and
a Floor cell whose in-bounds 4-neighbors all hold same-room Floor stays
Floor. It is the boundary Floor cells themselves that are converted to
Wall, not the surrounding Background. -/
theorem generateWalls_spec (W H : Nat) (rg : RGrid) (g : Grid) :
    (∀ x y : Nat, gridGet g x y ≠ FLOOR →
      gridGet (generateWalls W H rg g) x y = gridGet g x y) ∧
    (∀ x y : Nat, gridGet (generateWalls W H rg g) x y ≠ gridGet g x y →
      gridGet (generateWalls W H rg g) x y = WALL ∧ gridGet g x y = FLOOR) ∧
    (∀ x y : Nat, interiorSameRoomCell W H rg g x y →
      gridGet (generateWalls W H rg g) x y = FLOOR) := by
  refine ⟨?_, ?_, ?_⟩
  · intro x y h
    exact wallsFold_nonfloor W H rg (cellListYX W H) g x y h
  · intro x y h
    refine ⟨wallsFold_changed_wall W H rg (cellListYX W H) g x y h, ?_⟩
    by_contra hnf
    exact h (wallsFold_nonfloor W H rg (cellListYX W H) g x y hnf)
  · intro x y hint
    exact wallsFold_interior W H rg g x y hint (cellListYX W H) g
      (fun a b => Or.inl rfl) hint.1

/-- The wall-skinner behaviour as the spec words it: non-Floor cells with
a Floor neighbor are promoted to Wall, and no Floor cell is converted to
Wall. -/
def claimWallSkinner (W H : Nat) (rg : RGrid) (g : Grid) : Prop :=
  (∀ x y : Nat, x < W → y < H → gridGet g x y ≠ FLOOR →
    (∃ d ∈ wallDirs, 0 ≤ (x : Int) + d.1 ∧ 0 ≤ (y : Int) + d.2 ∧
      (x : Int) + d.1 < (W : Int) ∧ (y : Int) + d.2 < (H : Int) ∧
      gridGet g ((x : Int) + d.1).toNat ((y : Int) + d.2).toNat = FLOOR) →
    gridGet (generateWalls W H rg g) x y = WALL) ∧
  (∀ x y : Nat, x < W → y < H → gridGet g x y = FLOOR →
    gridGet (generateWalls W H rg g) x y ≠ WALL)

/-- Claim C8 (counterexample): on the 2×1 grid `[FLOOR, TERRAIN]` of a
single room, the pass leaves the Terrain cell (adjacent to Floor)
untouched and converts the rasterized Floor cell itself to Wall — both
halves of the claimed behaviour fail. -/
theorem wall_pass_inverts_claim :
    gridGet (generateWalls 2 1 [[0, -1]] [[1, 0]]) 0 0 = WALL ∧
    gridGet (generateWalls 2 1 [[0, -1]] [[1, 0]]) 1 0 = TERRAIN ∧
    ¬ claimWallSkinner 2 1 [[0, -1]] [[1, 0]] := by
  refine ⟨by decide, by decide, ?_⟩
  intro h
  exact (h.2 0 0 (by decide) (by decide) (by decide)) (by decide)

/-- Witness for `generateWalls_spec` at the concrete 2×1 instance. -/
theorem generateWalls_spec_witness :
    gridGet (generateWalls 2 1 [[0, -1]] [[1, 0]]) 1 0 = gridGet [[1, 0]] 1 0 ∧
    gridGet (generateWalls 1 1 [[7]] [[1]]) 0 0 = FLOOR := by
  constructor
  · exact (generateWalls_spec 2 1 [[0, -1]] [[1, 0]]).1 1 0 (by decide)
  · exact (generateWalls_spec 1 1 [[7]] [[1]]).2.2 0 0 (by decide)

/-! ## Claim C7: the door carver -/

/-- A grid with uniform row length `W` and `H` rows. -/
def GridDims (g : Grid) (W H : Nat) : Prop :=
  g.length = H ∧ ∀ row ∈ g, row.length = W

instance (g : Grid) (W H : Nat) : Decidable (GridDims g W H) := by
  unfold GridDims
  infer_instance

theorem gridGet_gridSet_self {g : Grid} {W H x y v : Nat}
    (hd : GridDims g W H) (hx : x < W) (hy : y < H) :
    gridGet (gridSet g x y v) x y = v := by
  unfold gridGet gridSet
  simp only [List.getD_eq_getElem?_getD]
  have hylen : y < g.length := by rw [hd.1]; exact hy
  rw [List.getElem?_set_self hylen]
  simp only [Option.getD_some]
  have hrow : g[y]?.getD [] = g[y] := by
    rw [List.getElem?_eq_getElem hylen]
    rfl
  have hrlen : (g[y]?.getD []).length = W := by
    rw [hrow]
    exact hd.2 _ (List.getElem_mem hylen)
  rw [List.getElem?_set_self (by omega)]
  rfl

theorem gridDims_gridSet {g : Grid} {W H x y v : Nat}
    (hd : GridDims g W H) (_hx : x < W) (hy : y < H) :
    GridDims (gridSet g x y v) W H := by
  constructor
  · rw [gridSet, List.length_set, hd.1]
  · intro row hrow
    rcases List.mem_or_eq_of_mem_set hrow with h | h
    · exact hd.2 row h
    · subst h
      rw [List.length_set]
      have hylen : y < g.length := by rw [hd.1]; exact hy
      have : g.getD y [] = g[y] := by
        rw [List.getD_eq_getElem?_getD, List.getElem?_eq_getElem hylen]
        rfl
      rw [this]
      exact hd.2 _ (List.getElem_mem hylen)

/-- A bounds-respecting `setDoor` call is exactly a `DOOR` write, and
keeps the grid dimensions. -/
theorem setDoor_to_gridSet {g : Grid} {W H : Nat} {x y : Int}
    (hd : GridDims g W H) (hx : 0 ≤ x ∧ x < (W : Int)) (hy : 0 ≤ y ∧ y < (H : Int)) :
    setDoor x y g = gridSet g x.toNat y.toNat DOOR ∧
    GridDims (setDoor x y g) W H := by
  have hH : 0 < H := by omega
  have hlen : (g.length : Int) = (H : Int) := by rw [hd.1]
  have hrow0 : (g.getD 0 []).length = W := by
    have h0 : 0 < g.length := by omega
    have : g.getD 0 [] = g[0] := by
      rw [List.getD_eq_getElem?_getD, List.getElem?_eq_getElem h0]
      rfl
    rw [this]
    exact hd.2 _ (List.getElem_mem h0)
  have hguard : (decide (0 ≤ y) && decide (y < (g.length : Int)) && decide (0 ≤ x) &&
      decide (x < ((g.getD 0 []).length : Int))) = true := by
    rw [hlen, hrow0]
    simp only [Bool.and_eq_true, decide_eq_true_eq]
    exact ⟨⟨⟨hy.1, hy.2⟩, hx.1⟩, hx.2⟩
  have heq : setDoor x y g = gridSet g x.toNat y.toNat DOOR := by
    unfold setDoor
    rw [if_pos hguard]
  refine ⟨heq, ?_⟩
  rw [heq]
  exact gridDims_gridSet hd (by omega) (by omega)

/-- The door list of the (first) room with a given id. -/
def roomDoors (rooms : List RoomData) (rid : String) : List DoorPos :=
  ((rooms.find? (fun r => r.id == rid)).map (fun r => r.doors)).getD []

theorem addDoorMeta_roomDoors_self {rooms : List RoomData} {rid : String}
    {x y : Int} (hex : ∃ r ∈ rooms, r.id = rid) :
    (⟨x, y⟩ : DoorPos) ∈ roomDoors (addDoorMeta rooms rid x y) rid := by
  induction rooms with
  | nil => simp at hex
  | cons r rest ih =>
    by_cases hid : (r.id == rid) = true
    · simp only [addDoorMeta, hid, if_true]
      by_cases hdup : (r.doors.any (fun d => d.x == x && d.y == y)) = true
      · simp only [hdup, if_true, roomDoors, List.find?, hid, Option.map_some,
          Option.getD_some]
        rw [List.any_eq_true] at hdup
        obtain ⟨d, hd, hdeq⟩ := hdup
        simp only [Bool.and_eq_true, beq_iff_eq] at hdeq
        have hde : d = ⟨x, y⟩ := by
          cases d
          simp only [DoorPos.mk.injEq]
          exact ⟨hdeq.1, hdeq.2⟩
        rw [← hde]
        exact hd
      · simp only [hdup, Bool.false_eq_true, if_false, roomDoors, List.find?, hid,
          Option.map_some, Option.getD_some]
        exact List.mem_append.2 (Or.inr (List.mem_singleton.2 rfl))
    · rw [Bool.not_eq_true] at hid
      simp only [addDoorMeta, hid, Bool.false_eq_true, if_false, roomDoors,
        List.find?, hid]
      have hex2 : ∃ r2 ∈ rest, r2.id = rid := by
        obtain ⟨r2, hr2, hr2id⟩ := hex
        rcases List.mem_cons.1 hr2 with rfl | hr2
        · rw [show (r2.id == rid) = true by simpa using hr2id] at hid
          cases hid
        · exact ⟨r2, hr2, hr2id⟩
      exact ih hex2

theorem addDoorMeta_roomDoors_mono {rooms : List RoomData} {rid : String}
    {x y : Int} {rid2 : String} {d : DoorPos}
    (h : d ∈ roomDoors rooms rid2) :
    d ∈ roomDoors (addDoorMeta rooms rid x y) rid2 := by
  induction rooms with
  | nil => simp [roomDoors] at h
  | cons r rest ih =>
    by_cases hid : (r.id == rid) = true
    · simp only [addDoorMeta, hid, if_true]
      by_cases hdup : (r.doors.any (fun dd => dd.x == x && dd.y == y)) = true
      · simpa [hdup] using h
      · simp only [hdup, Bool.false_eq_true, if_false]
        by_cases hid2 : (r.id == rid2) = true
        · simp only [roomDoors, List.find?, hid2] at h
          simp only [roomDoors, List.find?, show
            (({ r with doors := r.doors ++ [⟨x, y⟩] } : RoomData).id == rid2) = true
            from hid2, Option.map_some, Option.getD_some] at h ⊢
          exact List.mem_append.2 (Or.inl h)
        · rw [Bool.not_eq_true] at hid2
          simp only [roomDoors, List.find?, hid2] at h
          simp only [roomDoors, List.find?, show
            (({ r with doors := r.doors ++ [⟨x, y⟩] } : RoomData).id == rid2) = false
            from hid2]
          exact h
    · rw [Bool.not_eq_true] at hid
      simp only [addDoorMeta, hid, Bool.false_eq_true, if_false]
      by_cases hid2 : (r.id == rid2) = true
      · simp only [roomDoors, List.find?, hid2] at h
        simp only [roomDoors, List.find?, hid2]
        exact h
      · rw [Bool.not_eq_true] at hid2
        simp only [roomDoors, List.find?, hid2] at h
        simp only [roomDoors, List.find?, hid2]
        exact ih h

theorem addDoorMeta_exists_id {rooms : List RoomData} {rid2 : String}
    (h : ∃ r ∈ rooms, r.id = rid2) (rid : String) (x y : Int) :
    ∃ r ∈ addDoorMeta rooms rid x y, r.id = rid2 := by
  induction rooms with
  | nil => simp at h
  | cons r rest ih =>
    obtain ⟨r2, hr2, hr2id⟩ := h
    by_cases hid : (r.id == rid) = true
    · simp only [addDoorMeta, hid, if_true]
      rcases List.mem_cons.1 hr2 with rfl | hmem
      · refine ⟨_, List.mem_cons_self _ _, ?_⟩
        split <;> simpa using hr2id
      · exact ⟨r2, List.mem_cons_of_mem _ hmem, hr2id⟩
    · simp only [addDoorMeta, hid, Bool.false_eq_true, if_false]
      rcases List.mem_cons.1 hr2 with rfl | hmem
      · exact ⟨r2, List.mem_cons_self _ _, hr2id⟩
      · obtain ⟨r3, hr3, hr3id⟩ := ih ⟨r2, hmem, hr2id⟩
        exact ⟨r3, List.mem_cons_of_mem _ hr3, hr3id⟩

theorem gridGetI_pos {g : Grid} {x y : Int} (hx : 0 ≤ x) (hy : 0 ≤ y) :
    gridGetI g x y = gridGet g x.toNat y.toNat := by
  have hc : (decide (0 ≤ x) && decide (0 ≤ y)) = true := by simp [hx, hy]
  unfold gridGetI
  rw [if_pos hc]

theorem pair_ne_of_fst {a b c d : Nat} (h : a ≠ c) : (a, b) ≠ (c, d) :=
  fun hc => h (congrArg Prod.fst hc)

theorem pair_ne_of_snd {a b c d : Nat} (h : b ≠ d) : (a, b) ≠ (c, d) :=
  fun hc => h (congrArg Prod.snd hc)

/-- The carved door column for a vertical (top/bottom) connection:
one left of the midpoint of the horizontal overlap. -/
def vDoorX (rA rB : Rect) : Int :=
  (max rA.x rB.x + min rA.right rB.right).fdiv 2 - 1

/-- The boundary row for a vertical connection. -/
def vDoorY (rA rB : Rect) : Int :=
  if rA.bottom == rB.y then rA.bottom else rA.y

/-- The carved door row for a horizontal (left/right) connection. -/
def hDoorY (rA rB : Rect) : Int :=
  (max rA.y rB.y + min rA.bottom rB.bottom).fdiv 2 - 1

/-- The boundary column for a horizontal connection. -/
def hDoorX (rA rB : Rect) : Int :=
  if rA.right == rB.x then rA.right else rA.x

/-- Claim C7 (amended): for every declared connection between placed rooms
whose rectangles touch edge-to-edge with an overlap of at least the door
width (2 cells), and whose carved 2×2 block lies entirely within the
canvas (the in-bounds hypotheses), `carveDoor` converts the 2-wide,
2-deep block of cells centered on the overlap midpoint to `DOOR` (one
row/column on each side of the boundary) and records each room's pair of
door cells in its `RoomData` doors; if the rectangles do not touch, the
grid and metadata are returned unchanged. When part of the block lies
off-canvas the conversion half of the claim fails: `setDoor` silently
skips those writes while `addDoorMeta` still records the cells (see the
counterexample). -/
theorem carveDoor_spec (W H : Nat) (rA rB : Rect) (g : Grid)
    (rooms : List RoomData) (hd : GridDims g W H)
    (hhA : 0 < rA.h) (hhB : 0 < rB.h) (hwA : 0 < rA.w) (hwB : 0 < rB.w)
    (hexA : ∃ r ∈ rooms, r.id = rA.room.id)
    (hexB : ∃ r ∈ rooms, r.id = rB.room.id) :
    (rA.bottom = rB.y ∨ rA.y = rB.bottom →
     2 ≤ min rA.right rB.right - max rA.x rB.x →
     0 ≤ vDoorX rA rB ∧ vDoorX rA rB + 1 < (W : Int) →
     1 ≤ vDoorY rA rB ∧ vDoorY rA rB < (H : Int) →
     (gridGetI (carveDoor rA rB g rooms).1 (vDoorX rA rB) (vDoorY rA rB) = DOOR ∧
      gridGetI (carveDoor rA rB g rooms).1 (vDoorX rA rB) (vDoorY rA rB - 1) = DOOR ∧
      gridGetI (carveDoor rA rB g rooms).1 (vDoorX rA rB + 1) (vDoorY rA rB) = DOOR ∧
      gridGetI (carveDoor rA rB g rooms).1 (vDoorX rA rB + 1) (vDoorY rA rB - 1) = DOOR) ∧
     (⟨vDoorX rA rB, vDoorY rA rB - 1⟩ : DoorPos) ∈
        roomDoors (carveDoor rA rB g rooms).2 rA.room.id ∧
     (⟨vDoorX rA rB + 1, vDoorY rA rB - 1⟩ : DoorPos) ∈
        roomDoors (carveDoor rA rB g rooms).2 rA.room.id ∧
     (⟨vDoorX rA rB, vDoorY rA rB⟩ : DoorPos) ∈
        roomDoors (carveDoor rA rB g rooms).2 rB.room.id ∧
     (⟨vDoorX rA rB + 1, vDoorY rA rB⟩ : DoorPos) ∈
        roomDoors (carveDoor rA rB g rooms).2 rB.room.id) ∧
    (rA.right = rB.x ∨ rA.x = rB.right →
     2 ≤ min rA.bottom rB.bottom - max rA.y rB.y →
     1 ≤ hDoorX rA rB ∧ hDoorX rA rB < (W : Int) →
     0 ≤ hDoorY rA rB ∧ hDoorY rA rB + 1 < (H : Int) →
     (gridGetI (carveDoor rA rB g rooms).1 (hDoorX rA rB) (hDoorY rA rB) = DOOR ∧
      gridGetI (carveDoor rA rB g rooms).1 (hDoorX rA rB - 1) (hDoorY rA rB) = DOOR ∧
      gridGetI (carveDoor rA rB g rooms).1 (hDoorX rA rB) (hDoorY rA rB + 1) = DOOR ∧
      gridGetI (carveDoor rA rB g rooms).1 (hDoorX rA rB - 1) (hDoorY rA rB + 1) = DOOR) ∧
     (⟨hDoorX rA rB - 1, hDoorY rA rB⟩ : DoorPos) ∈
        roomDoors (carveDoor rA rB g rooms).2 rA.room.id ∧
     (⟨hDoorX rA rB - 1, hDoorY rA rB + 1⟩ : DoorPos) ∈
        roomDoors (carveDoor rA rB g rooms).2 rA.room.id ∧
     (⟨hDoorX rA rB, hDoorY rA rB⟩ : DoorPos) ∈
        roomDoors (carveDoor rA rB g rooms).2 rB.room.id ∧
     (⟨hDoorX rA rB, hDoorY rA rB + 1⟩ : DoorPos) ∈
        roomDoors (carveDoor rA rB g rooms).2 rB.room.id) ∧
    (rA.bottom ≠ rB.y → rA.y ≠ rB.bottom → rA.right ≠ rB.x → rA.x ≠ rB.right →
     carveDoor rA rB g rooms = (g, rooms)) := by
  refine ⟨?_, ?_, ?_⟩
  · -- vertical connection
    intro hv hov hbx hby
    have hc1 : (decide (2 ≤ min rA.right rB.right - max rA.x rB.x) &&
        (rA.bottom == rB.y || rA.y == rB.bottom)) = true := by
      rcases hv with hv | hv <;> simp [hov, hv]
    have hc2f : (decide (2 ≤ min rA.bottom rB.bottom - max rA.y rB.y) &&
        (rA.right == rB.x || rA.x == rB.right)) = false := by
      have hle : ¬ (2 ≤ min rA.bottom rB.bottom - max rA.y rB.y) := by
        simp only [Rect.bottom] at hv ⊢
        rcases hv with hv | hv <;> omega
      simp [hle]
    have hres : carveDoor rA rB g rooms =
        (setDoor (vDoorX rA rB + 1) (vDoorY rA rB - 1)
          (setDoor (vDoorX rA rB + 1) (vDoorY rA rB)
            (setDoor (vDoorX rA rB) (vDoorY rA rB - 1)
              (setDoor (vDoorX rA rB) (vDoorY rA rB) g))),
         addDoorMeta
           (addDoorMeta
             (addDoorMeta
               (addDoorMeta rooms rA.room.id (vDoorX rA rB) (vDoorY rA rB - 1))
               rA.room.id (vDoorX rA rB + 1) (vDoorY rA rB - 1))
             rB.room.id (vDoorX rA rB) (vDoorY rA rB))
           rB.room.id (vDoorX rA rB + 1) (vDoorY rA rB)) := by
      simp only [carveDoor, hc1, hc2f, Bool.false_eq_true, if_false, if_true,
        vDoorX, vDoorY]
    have hx1 : (0 : Int) ≤ vDoorX rA rB ∧ vDoorX rA rB < (W : Int) :=
      ⟨hbx.1, by omega⟩
    have hx2 : (0 : Int) ≤ vDoorX rA rB + 1 ∧ vDoorX rA rB + 1 < (W : Int) :=
      ⟨by omega, hbx.2⟩
    have hy1 : (0 : Int) ≤ vDoorY rA rB ∧ vDoorY rA rB < (H : Int) :=
      ⟨by omega, hby.2⟩
    have hy2 : (0 : Int) ≤ vDoorY rA rB - 1 ∧ vDoorY rA rB - 1 < (H : Int) :=
      ⟨by omega, by omega⟩
    obtain ⟨he1, hd1⟩ := setDoor_to_gridSet hd hx1 hy1
    obtain ⟨he2, hd2⟩ := setDoor_to_gridSet hd1 hx1 hy2
    obtain ⟨he3, hd3⟩ := setDoor_to_gridSet hd2 hx2 hy1
    obtain ⟨he4, hd4⟩ := setDoor_to_gridSet hd3 hx2 hy2
    have hnx : (vDoorX rA rB).toNat ≠ (vDoorX rA rB + 1).toNat := by omega
    have hny : (vDoorY rA rB).toNat ≠ (vDoorY rA rB - 1).toNat := by omega
    rw [hres]
    refine ⟨⟨?_, ?_, ?_, ?_⟩, ?_, ?_, ?_, ?_⟩
    · rw [gridGetI_pos hx1.1 hy1.1]
      show gridGet _ _ _ = DOOR
      rw [he4, gridGet_gridSet_ne (pair_ne_of_fst hnx), he3,
        gridGet_gridSet_ne (pair_ne_of_fst hnx), he2,
        gridGet_gridSet_ne (pair_ne_of_snd hny), he1]
      exact gridGet_gridSet_self hd (by omega) (by omega)
    · rw [gridGetI_pos hx1.1 hy2.1]
      show gridGet _ _ _ = DOOR
      rw [he4, gridGet_gridSet_ne (pair_ne_of_fst hnx), he3,
        gridGet_gridSet_ne (pair_ne_of_fst hnx), he2]
      exact gridGet_gridSet_self hd1 (by omega) (by omega)
    · rw [gridGetI_pos hx2.1 hy1.1]
      show gridGet _ _ _ = DOOR
      rw [he4, gridGet_gridSet_ne (pair_ne_of_snd hny), he3]
      exact gridGet_gridSet_self hd2 (by omega) (by omega)
    · rw [gridGetI_pos hx2.1 hy2.1]
      show gridGet _ _ _ = DOOR
      rw [he4]
      exact gridGet_gridSet_self hd3 (by omega) (by omega)
    · exact addDoorMeta_roomDoors_mono
        (addDoorMeta_roomDoors_mono
          (addDoorMeta_roomDoors_mono
            (addDoorMeta_roomDoors_self hexA)))
    · exact addDoorMeta_roomDoors_mono
        (addDoorMeta_roomDoors_mono
          (addDoorMeta_roomDoors_self
            (addDoorMeta_exists_id hexA _ _ _)))
    · exact addDoorMeta_roomDoors_mono
        (addDoorMeta_roomDoors_self
          (addDoorMeta_exists_id (addDoorMeta_exists_id hexB _ _ _) _ _ _))
    · exact addDoorMeta_roomDoors_self
        (addDoorMeta_exists_id
          (addDoorMeta_exists_id (addDoorMeta_exists_id hexB _ _ _) _ _ _) _ _ _)
  · -- horizontal connection
    intro hh hov hbx hby
    have hc1f : (decide (2 ≤ min rA.right rB.right - max rA.x rB.x) &&
        (rA.bottom == rB.y || rA.y == rB.bottom)) = false := by
      have hle : ¬ (2 ≤ min rA.right rB.right - max rA.x rB.x) := by
        simp only [Rect.right] at hh ⊢
        rcases hh with hh | hh <;> omega
      simp [hle]
    have hc2 : (decide (2 ≤ min rA.bottom rB.bottom - max rA.y rB.y) &&
        (rA.right == rB.x || rA.x == rB.right)) = true := by
      rcases hh with hh | hh <;> simp [hov, hh]
    have hres : carveDoor rA rB g rooms =
        (setDoor (hDoorX rA rB - 1) (hDoorY rA rB + 1)
          (setDoor (hDoorX rA rB) (hDoorY rA rB + 1)
            (setDoor (hDoorX rA rB - 1) (hDoorY rA rB)
              (setDoor (hDoorX rA rB) (hDoorY rA rB) g))),
         addDoorMeta
           (addDoorMeta
             (addDoorMeta
               (addDoorMeta rooms rA.room.id (hDoorX rA rB - 1) (hDoorY rA rB))
               rA.room.id (hDoorX rA rB - 1) (hDoorY rA rB + 1))
             rB.room.id (hDoorX rA rB) (hDoorY rA rB))
           rB.room.id (hDoorX rA rB) (hDoorY rA rB + 1)) := by
      simp only [carveDoor, hc1f, hc2, Bool.false_eq_true, if_false, if_true,
        hDoorX, hDoorY]
    have hx1 : (0 : Int) ≤ hDoorX rA rB ∧ hDoorX rA rB < (W : Int) :=
      ⟨by omega, hbx.2⟩
    have hx2 : (0 : Int) ≤ hDoorX rA rB - 1 ∧ hDoorX rA rB - 1 < (W : Int) :=
      ⟨by omega, by omega⟩
    have hy1 : (0 : Int) ≤ hDoorY rA rB ∧ hDoorY rA rB < (H : Int) :=
      ⟨hby.1, by omega⟩
    have hy2 : (0 : Int) ≤ hDoorY rA rB + 1 ∧ hDoorY rA rB + 1 < (H : Int) :=
      ⟨by omega, hby.2⟩
    obtain ⟨he1, hd1⟩ := setDoor_to_gridSet hd hx1 hy1
    obtain ⟨he2, hd2⟩ := setDoor_to_gridSet hd1 hx2 hy1
    obtain ⟨he3, hd3⟩ := setDoor_to_gridSet hd2 hx1 hy2
    obtain ⟨he4, hd4⟩ := setDoor_to_gridSet hd3 hx2 hy2
    have hnx : (hDoorX rA rB).toNat ≠ (hDoorX rA rB - 1).toNat := by omega
    have hny : (hDoorY rA rB).toNat ≠ (hDoorY rA rB + 1).toNat := by omega
    rw [hres]
    refine ⟨⟨?_, ?_, ?_, ?_⟩, ?_, ?_, ?_, ?_⟩
    · rw [gridGetI_pos hx1.1 hy1.1]
      show gridGet _ _ _ = DOOR
      rw [he4, gridGet_gridSet_ne (pair_ne_of_snd hny), he3,
        gridGet_gridSet_ne (pair_ne_of_snd hny), he2,
        gridGet_gridSet_ne (pair_ne_of_fst hnx), he1]
      exact gridGet_gridSet_self hd (by omega) (by omega)
    · rw [gridGetI_pos hx2.1 hy1.1]
      show gridGet _ _ _ = DOOR
      rw [he4, gridGet_gridSet_ne (pair_ne_of_snd hny), he3,
        gridGet_gridSet_ne (pair_ne_of_snd hny), he2]
      exact gridGet_gridSet_self hd1 (by omega) (by omega)
    · rw [gridGetI_pos hx1.1 hy2.1]
      show gridGet _ _ _ = DOOR
      rw [he4, gridGet_gridSet_ne (pair_ne_of_fst hnx), he3]
      exact gridGet_gridSet_self hd2 (by omega) (by omega)
    · rw [gridGetI_pos hx2.1 hy2.1]
      show gridGet _ _ _ = DOOR
      rw [he4]
      exact gridGet_gridSet_self hd3 (by omega) (by omega)
    · exact addDoorMeta_roomDoors_mono
        (addDoorMeta_roomDoors_mono
          (addDoorMeta_roomDoors_mono
            (addDoorMeta_roomDoors_self hexA)))
    · exact addDoorMeta_roomDoors_mono
        (addDoorMeta_roomDoors_mono
          (addDoorMeta_roomDoors_self
            (addDoorMeta_exists_id hexA _ _ _)))
    · exact addDoorMeta_roomDoors_mono
        (addDoorMeta_roomDoors_self
          (addDoorMeta_exists_id (addDoorMeta_exists_id hexB _ _ _) _ _ _))
    · exact addDoorMeta_roomDoors_self
        (addDoorMeta_exists_id
          (addDoorMeta_exists_id (addDoorMeta_exists_id hexB _ _ _) _ _ _) _ _ _)
  · -- no touching edge: nothing happens
    intro h1 h2 h3 h4
    have hb1 : (rA.bottom == rB.y) = false := by
      rw [beq_eq_false_iff_ne]
      exact h1
    have hb2 : (rA.y == rB.bottom) = false := by
      rw [beq_eq_false_iff_ne]
      exact h2
    have hb3 : (rA.right == rB.x) = false := by
      rw [beq_eq_false_iff_ne]
      exact h3
    have hb4 : (rA.x == rB.right) = false := by
      rw [beq_eq_false_iff_ne]
      exact h4
    simp [carveDoor, hb1, hb2, hb3, hb4]

def roomD1 : RoomConfig :=
  { id := "d1", name := "D1", rtype := "den", connections := [], furniture := [] }

def roomD2 : RoomConfig :=
  { id := "d2", name := "D2", rtype := "den", connections := [], furniture := [] }

def rectD1 : Rect := { x := 0, y := 0, w := 4, h := 4, room := roomD1 }

def rectD2 : Rect := { x := 0, y := 4, w := 4, h := 3, room := roomD2 }

def gridD : Grid := mkGrid 6 8 WALL

def roomsD : List RoomData := [rectToRoomData rectD1, rectToRoomData rectD2]

/-- Claim C7 (witness): two stacked 4-wide rooms sharing the boundary row
`y = 4` get a door carved at the overlap midpoint, with the door cells
recorded in both rooms' metadata. -/
theorem carveDoor_spec_witness :
    gridGetI (carveDoor rectD1 rectD2 gridD roomsD).1
      (vDoorX rectD1 rectD2) (vDoorY rectD1 rectD2) = DOOR ∧
    (⟨vDoorX rectD1 rectD2, vDoorY rectD1 rectD2 - 1⟩ : DoorPos) ∈
      roomDoors (carveDoor rectD1 rectD2 gridD roomsD).2 rectD1.room.id ∧
    (⟨vDoorX rectD1 rectD2, vDoorY rectD1 rectD2⟩ : DoorPos) ∈
      roomDoors (carveDoor rectD1 rectD2 gridD roomsD).2 rectD2.room.id := by
  have h := (carveDoor_spec 6 8 rectD1 rectD2 gridD roomsD (by decide)
      (by decide) (by decide) (by decide) (by decide)
      ⟨rectToRoomData rectD1, by decide, rfl⟩
      ⟨rectToRoomData rectD2, by decide, rfl⟩).1
      (Or.inl (by decide)) (by decide) ⟨by decide, by decide⟩ ⟨by decide, by decide⟩
  exact ⟨h.1.1, h.2.1, h.2.2.2.1⟩

def roomE1 : RoomConfig :=
  { id := "e1", name := "E1", rtype := "den", connections := [], furniture := [] }

def roomE2 : RoomConfig :=
  { id := "e2", name := "E2", rtype := "den", connections := [], furniture := [] }

def rectE1 : Rect := { x := 0, y := -4, w := 4, h := 4, room := roomE1 }

def rectE2 : Rect := { x := 0, y := 0, w := 4, h := 3, room := roomE2 }

def gridE : Grid := mkGrid 6 6 WALL

def roomsE : List RoomData := [rectToRoomData rectE1, rectToRoomData rectE2]

/-- Claim C7 (counterexample): the upper room hangs off the canvas (layout
can place rooms at negative coordinates, see claim C5) and the shared
boundary is the canvas's top row, so half of the carved 2×2 block lies
off-canvas. `setDoor` silently skips those writes — the cell (1, −1) is
never converted to `DOOR` — yet `addDoorMeta` still records (1, −1) in
the upper room's door list, so the recorded door cells and the converted
cells disagree and the claim's conversion-plus-record conjunction fails. -/
theorem carveDoor_records_offcanvas_door :
    (⟨1, -1⟩ : DoorPos) ∈ roomDoors (carveDoor rectE1 rectE2 gridE roomsE).2 "e1" ∧
    gridGetI (carveDoor rectE1 rectE2 gridE roomsE).1 1 (-1) ≠ DOOR := by decide

/-! ### Claim C4: seeded determinism -/

theorem placeItems_nil (room : RoomData) (g : Grid) (fv : Nat) (s : List Nat) :
    placeItems room [] g fv s = ([], [], s) := rfl

theorem furnishRooms_empty (cfgRooms : List RoomConfig)
    (h : ∀ c ∈ cfgRooms, c.furniture = []) :
    ∀ (g : Grid) (mapRooms : List RoomData) (tiles : List TileData) (s : List Nat),
      furnishRooms mapRooms cfgRooms g tiles s = (tiles, s) := by
  intro g mapRooms
  induction mapRooms with
  | nil => intro tiles s; rfl
  | cons room rest ih =>
    intro tiles s
    rcases hf : cfgRooms.find? (fun r => r.id == room.id) with _ | cfg
    · have hstep : furnishRooms (room :: rest) cfgRooms g tiles s =
          furnishRooms rest cfgRooms g tiles s := by
        simp [furnishRooms, hf]
      rw [hstep]
      exact ih tiles s
    · have hc : cfg.furniture = [] := h cfg (List.mem_of_find?_eq_some hf)
      have hstep : furnishRooms (room :: rest) cfgRooms g tiles s =
          furnishRooms rest cfgRooms g tiles s := by
        simp [furnishRooms, hf, hc, placeItems_nil]
      rw [hstep]
      exact ih tiles s

def roomStorage : RoomConfig :=
  { id := "r1", name := "Storage", rtype := "storage", connections := ["r3"],
    furniture := [], width? := some 6, height? := some 6 }

def roomStore : RoomConfig :=
  { id := "r2", name := "Store", rtype := "store", connections := [],
    furniture := [], width? := some 5, height? := some 5 }

def roomDen : RoomConfig :=
  { id := "r3", name := "Den", rtype := "den", connections := ["r1"],
    furniture := [], width? := some 4, height? := some 4 }

def cfgC4 : MapConfig :=
  { width := 16, height := 16, rooms := [roomStorage, roomStore, roomDen] }

/-- Claim C4 (counterexample): the generator draws directly from the
ambient `Math.random` stream; no seed parameter exists anywhere in the
pipeline. Two runs on the identical config under different ambient
streams produce different room layouts, so runs are not reproducible and
the randomness is not seedable. -/
theorem generate_not_seed_reproducible :
    (generate cfgC4 [0, 0]).rooms ≠ (generate cfgC4 [0, 1]).rooms := by decide

/-- Claim C4 (amended): the only nondeterminism is the ambient
`Math.random` stream, consumed solely by the cluster layout's parent
shuffle and the furniture solver's candidate shuffle. When the selector
chooses the spine strategy and no room requests furniture, the stream is
never consulted, so any two runs on the same config agree exactly. -/
theorem generate_spine_stream_independent (cfg : MapConfig) (r : Rect)
    (hsel : selectLayout (mkRects cfg) = .spine r)
    (hfur : ∀ c ∈ cfg.rooms, c.furniture = [])
    (s1 s2 : List Nat) :
    generate cfg s1 = generate cfg s2 := by
  have hlay : ∀ s : List Nat, layoutRects cfg s =
      (buildSpineLayout r (mkRects cfg) cfg.width cfg.height, s) := by
    intro s
    simp [layoutRects, hsel]
  simp only [generate, generateGrids, hlay, furnishRooms_empty cfg.rooms hfur]

def roomSpineS : RoomConfig :=
  { id := "cs", name := "Spine", rtype := "corridor", connections := [],
    furniture := [] }

def roomDenT : RoomConfig :=
  { id := "dt", name := "DenT", rtype := "den", connections := ["cs"],
    furniture := [] }

def cfgSpine : MapConfig :=
  { width := 14, height := 14, rooms := [roomSpineS, roomDenT] }

def rectSpine : Rect := { x := 0, y := 0, w := 10, h := 2, room := roomSpineS }

/-- Claim C4 (witness): a corridor-anchored config with no furniture is
generated identically under two different ambient streams. -/
theorem generate_spine_stream_independent_witness :
    selectLayout (mkRects cfgSpine) = .spine rectSpine ∧
    generate cfgSpine [0, 3] = generate cfgSpine [7, 1] :=
  ⟨by decide, generate_spine_stream_independent cfgSpine rectSpine (by decide)
    (by decide) [0, 3] [7, 1]⟩

/-! ### Claim C1: reachability and repair -/

theorem reachCell_walkable {g : Grid} {root : RoomData} {x y : Int}
    (h : ReachCell g root x y) : walkableVal (gridGetI g x y) = true := by
  cases h with
  | base x y hin hw => exact hw
  | step x y x2 y2 hr hadj hw => exact hw

def roomCfgS : RoomConfig :=
  { id := "s", name := "S", rtype := "corridor", connections := ["b"],
    furniture := [], width? := some 6, height? := some 2 }

def roomCfgB : RoomConfig :=
  { id := "b", name := "B", rtype := "bedroom", connections := ["s", "c"],
    furniture := [], width? := some 4, height? := some 3 }

def roomCfgC : RoomConfig :=
  { id := "c", name := "C", rtype := "closet", connections := ["b"],
    furniture := [], width? := some 1, height? := some 2 }

def cfgU : MapConfig :=
  { width := 8, height := 12, rooms := [roomCfgS, roomCfgB, roomCfgC] }

def gridU : Grid := (generateGrids cfgU []).1

def roomCData : RoomData :=
  { id := "c", name := "C", rtype := "closet", x := 3, y := 0, width := 1,
    height := 2, doors := [] }

set_option maxRecDepth 10000 in
/-- Claim C1 (counterexample): the generator contains no grid-level path
digging. On this three-room config the closet room `c` is placed as a
1×2 sliver whose both cells the wall skinner converts to `WALL`; it gets
no door and no floor path is dug, so it has no walkable cell at all and
the output map violates flood-fill reachability. -/
theorem generate_leaves_room_unreachable :
    roomCData ∈ (generate cfgU []).rooms ∧
    ¬ AllRoomsFloodReachable (generate cfgU []).rooms gridU := by
  refine ⟨by decide, ?_⟩
  intro hall
  obtain ⟨x, y, hin, hreach⟩ := hall roomCData (by decide)
  have hw := reachCell_walkable hreach
  have hxy : x = 3 ∧ (y = 0 ∨ y = 1) := by
    simp only [inRoomRect, roomCData] at hin
    omega
  obtain ⟨hx, hy⟩ := hxy
  subst hx
  rcases hy with hy | hy <;> subst hy
  · exact absurd hw (by decide)
  · exact absurd hw (by decide)

theorem graphReach_mono {rooms rooms2 : List RoomConfig}
    (h : ∀ r ∈ rooms, ∃ r2 ∈ rooms2, r2.id = r.id ∧
      ∀ c ∈ r.connections, c ∈ r2.connections)
    {a b : String} (hr : GraphReach rooms a b) : GraphReach rooms2 a b := by
  induction hr with
  | refl => exact .refl _
  | step hab hedge ih =>
    obtain ⟨rr, hrm, hrid, hcm⟩ := hedge
    obtain ⟨r2, hr2m, hr2id, hsub⟩ := h rr hrm
    exact .step ih ⟨r2, hr2m, hr2id.trans hrid, hsub _ hcm⟩

theorem bfsVisited_succ (rooms : List RoomConfig) (n : Nat) (curr : String)
    (rest visited : List String) :
    bfsVisited rooms (n + 1) (curr :: rest) visited =
      if visited.contains curr then bfsVisited rooms n rest visited
      else bfsVisited rooms n
        (rest ++ (((rooms.find? (fun r => r.id == curr)).map
          (fun r => r.connections)).getD []))
        (visited ++ [curr]) := rfl

theorem bfsVisited_sound (rooms : List RoomConfig) (root : String) :
    ∀ (fuel : Nat) (queue visited : List String),
      (∀ q ∈ queue, GraphReach rooms root q) →
      (∀ v ∈ visited, GraphReach rooms root v) →
      ∀ i ∈ bfsVisited rooms fuel queue visited, GraphReach rooms root i := by
  intro fuel
  induction fuel with
  | zero => intro queue visited hq hv i hi; exact hv i hi
  | succ n ih =>
    intro queue visited hq hv i hi
    cases queue with
    | nil => exact hv i hi
    | cons curr rest =>
      by_cases hc : visited.contains curr
      · rw [bfsVisited_succ, if_pos hc] at hi
        exact ih rest visited (fun q hqm => hq q (List.mem_cons_of_mem _ hqm)) hv i hi
      · have hcur : GraphReach rooms root curr := hq curr (List.mem_cons_self _ _)
        have hconns : ∀ q ∈ (((rooms.find? (fun r => r.id == curr)).map
            (fun r => r.connections)).getD []), GraphReach rooms root q := by
          rcases hfind : rooms.find? (fun r => r.id == curr) with _ | rr
          · intro q hqm
            rw [hfind] at hqm
            simp at hqm
          · intro q hqm
            rw [hfind] at hqm
            have hqm2 : q ∈ rr.connections := by simpa using hqm
            have hrm : rr ∈ rooms := List.mem_of_find?_eq_some hfind
            have hrid : rr.id = curr := by
              have := List.find?_some hfind
              simpa using this
            exact .step hcur ⟨rr, hrm, hrid, hqm2⟩
        rw [bfsVisited_succ, if_neg hc] at hi
        refine ih _ _ ?_ ?_ i hi
        · intro q hqm
          rcases List.mem_append.mp hqm with h1 | h1
          · exact hq q (List.mem_cons_of_mem _ h1)
          · exact hconns q h1
        · intro v hvm
          rcases List.mem_append.mp hvm with h1 | h1
          · exact hv v h1
          · have hvc : v = curr := by simpa using h1
            rw [hvc]
            exact hcur

/-- The orphan-id list of `ensureConnectivity`'s non-degenerate branch. -/
def ecOrphanIds (hub0 : RoomConfig) (rest : List RoomConfig)
    (visited : List String) : List String :=
  ((hub0 :: rest).filter (fun r => !(visited.contains r.id))).map
    (fun r => r.id)

/-- The non-degenerate branch of `ensureConnectivity`, with the BFS result
abstracted. -/
def ecOut (hub0 : RoomConfig) (rest : List RoomConfig) (visited : List String) :
    List RoomConfig :=
  { hub0 with connections := hub0.connections ++ ecOrphanIds hub0 rest visited } ::
    rest.map (fun r =>
      if visited.contains r.id then r
      else { r with connections := r.connections ++ [hub0.id] })

theorem ecOut_connected (hub0 : RoomConfig) (rest : List RoomConfig)
    (visited : List String)
    (hsound : ∀ v ∈ visited, GraphReach (hub0 :: rest) hub0.id v) :
    ∀ r ∈ ecOut hub0 rest visited,
      GraphReach (ecOut hub0 rest visited) hub0.id r.id := by
  have hmono : ∀ {a b : String}, GraphReach (hub0 :: rest) a b →
      GraphReach (ecOut hub0 rest visited) a b := by
    intro a b h
    refine graphReach_mono ?_ h
    intro rr hrr
    rcases List.mem_cons.mp hrr with hq | hq
    · subst hq
      exact ⟨{ rr with connections := rr.connections ++ ecOrphanIds rr rest visited },
        List.mem_cons_self _ _, rfl, fun c hc => List.mem_append_left _ hc⟩
    · by_cases hvz : visited.contains rr.id
      · refine ⟨rr, ?_, rfl, fun c hc => hc⟩
        refine List.mem_cons_of_mem _ (List.mem_map.mpr ⟨rr, hq, ?_⟩)
        rw [if_pos hvz]
      · refine ⟨{ rr with connections := rr.connections ++ [hub0.id] }, ?_, rfl,
          fun c hc => List.mem_append_left _ hc⟩
        refine List.mem_cons_of_mem _ (List.mem_map.mpr ⟨rr, hq, ?_⟩)
        rw [if_neg hvz]
  intro r hr
  rcases List.mem_cons.mp hr with hq | hq
  · subst hq
    exact .refl _
  · obtain ⟨sr, hsrm, hsreq⟩ := List.mem_map.mp hq
    by_cases hvz : visited.contains sr.id
    · rw [if_pos hvz] at hsreq
      subst hsreq
      have hmem : sr.id ∈ visited := by
        simpa using hvz
      exact hmono (hsound sr.id hmem)
    · rw [if_neg hvz] at hsreq
      subst hsreq
      refine .step (.refl hub0.id)
        ⟨{ hub0 with connections := hub0.connections ++ ecOrphanIds hub0 rest visited },
          List.mem_cons_self _ _, rfl, ?_⟩
      refine List.mem_append_right _ ?_
      refine List.mem_map.mpr ⟨sr, ?_, rfl⟩
      refine List.mem_filter.mpr ⟨List.mem_cons_of_mem _ hsrm, ?_⟩
      simpa using hvz

theorem ensureConnectivity_connected (hub0 : RoomConfig)
    (rest : List RoomConfig) :
    ∀ r ∈ ensureConnectivity (hub0 :: rest),
      GraphReach (ensureConnectivity (hub0 :: rest)) hub0.id r.id := by
  cases rest with
  | nil =>
    intro r hr
    have hout : ensureConnectivity [hub0] = [hub0] := rfl
    rw [hout] at hr ⊢
    have hrq : r = hub0 := by simpa using hr
    rw [hrq]
    exact .refl _
  | cons r1 rs =>
    have hout : ensureConnectivity (hub0 :: r1 :: rs) =
        ecOut hub0 (r1 :: rs)
          (bfsVisited (hub0 :: r1 :: rs) (bfsFuel (hub0 :: r1 :: rs))
            [hub0.id] []) := rfl
    rw [hout]
    refine ecOut_connected hub0 (r1 :: rs) _ ?_
    refine bfsVisited_sound _ hub0.id _ _ _ ?_ ?_
    · intro q hqm
      have hq0 : q = hub0.id := by simpa using hqm
      rw [hq0]
      exact .refl _
    · intro v hvm
      exact absurd hvm (List.not_mem_nil v)

/-- Claim C1 (amended): the repair performed on generator inputs is
graph-level, not grid-level: `generateMapConfig` sanitizes the connection
lists and then force-connects every BFS-orphan to the first room, so in
the repaired config every room's id is reachable from the first room's id
through the declared-connection graph. No grid/floor path digging exists
anywhere, and flood-fill reachability of the final tile map is not
guaranteed (see the counterexample). -/
theorem repairRooms_graph_connected (r0 : RoomConfig) (rest : List RoomConfig) :
    ∀ r ∈ repairRooms (r0 :: rest),
      GraphReach (repairRooms (r0 :: rest)) r0.id r.id := by
  intro r hr
  exact ensureConnectivity_connected _ _ r hr

def roomW1 : RoomConfig :=
  { id := "w1", name := "W1", rtype := "living", connections := ["zz"],
    furniture := [] }

def roomW2 : RoomConfig :=
  { id := "w2", name := "W2", rtype := "den", connections := [],
    furniture := [] }

def roomW2r : RoomConfig :=
  { id := "w2", name := "W2", rtype := "den", connections := ["w1"],
    furniture := [] }

/-- Claim C1 (witness): a dangling connection is dropped and the orphan
room `w2` is force-connected to the hub, ending up graph-reachable. -/
theorem repairRooms_graph_connected_witness :
    roomW2r ∈ repairRooms [roomW1, roomW2] ∧
    GraphReach (repairRooms [roomW1, roomW2]) roomW1.id roomW2r.id :=
  ⟨by decide, repairRooms_graph_connected roomW1 [roomW2] roomW2r (by decide)⟩

end NeuRPG
